import Mathlib

/-!
Verification of the fit-check listing-extraction pipeline.

This file gives a shallow embedding, over `List Char`, of the repository's
listing-extraction code:

* `src/api/fetch.js` — the request handler (`handler`) and the single-document
  parser (`parseEbayListing`) together with all of its regular-expression
  strategies, its JSON-LD scan, and its summary builder;
* the sibling generation of the handler embedded in `src/STATUS.md`
  (lines 149-467) — its secondary sub-document ("iframe") pass
  (`extractDescriptionIframeUrl`, `parseIframeDescription`, `buildSummary`,
  and the second-pass block of its `handler`);
* the earlier generation of the endpoint in `src/unnamed/part_001`
  (its `parseEbayListing`, lines 57-197), embedded under a `p1`/`P1` prefix.

JavaScript semantics are modelled explicitly:

* strings are `List Char` (JS `.length` counts UTF-16 units; for the
  basic-multilingual-plane text handled here the two coincide);
* JS numbers are modelled as `ℚ`, with `Option ℚ` where `NaN` can arise
  (IEEE-754 double rounding is abstracted away: all numeric literals in the
  relevant code paths are small decimals, where the two agree);
* JSON values are the inductive `JVal`; JS truthiness, the `.length` property,
  `String(...)` conversion, relational coercion (ToNumber) and `.slice` are
  each embedded, with `.slice` on a value that is neither a string nor an
  array modelled as a thrown `TypeError` (`Except.error`);
* each JS regular expression is transcribed into the `RE` syntax below and run
  by a backtracking matcher with exactly the preference order of JS regexes
  (leftmost start, left alternative first, greedy/lazy quantifiers); matching
  is fuel-bounded, with fuel generous enough to be irrelevant on every input
  considered here.
-/

set_option maxRecDepth 100000
set_option maxHeartbeats 4000000

namespace FitCheck

/-- JS strings are modelled as lists of characters. -/
abbrev Str := List Char

/-- Shorthand: turn a Lean string literal into the `Str` model. -/
def strL (s : String) : Str := s.toList

/-- The JS whitespace class `\s` (the members reachable in this code base). -/
def isJsSpace (c : Char) : Bool :=
  c == ' ' || c == '\t' || c == '\n' || c == '\r' || c == '\x0b' || c == '\x0c'
    || c == '\u00A0' || c == '\uFEFF'

/-- JS `String.prototype.trim`. -/
def jsTrim (s : Str) : Str :=
  ((s.dropWhile isJsSpace).reverse.dropWhile isJsSpace).reverse

/-- Case-insensitive prefix test (ASCII folding, as used by `/i` regexes). -/
def startsWithCI (p s : Str) : Bool :=
  (p.map Char.toLower).isPrefixOf (s.map Char.toLower)

/-! ### A small regex engine

Character classes and regex syntax cover exactly the constructs appearing in
the source's regex literals. -/

/-- Character classes used by the source's regexes. -/
inductive CC where
  | lit (c : Char)        -- a literal character (folded case under `/i`)
  | notc (c : Char)       -- `[^c]`
  | any                   -- `[\s\S]`
  | digit                 -- `\d`
  | space                 -- `\s`
  | digitDot              -- `[\d.]`
  | digitComma            -- `[\d,]`
  | spaceTab              -- `[ \t]`
  deriving Repr, DecidableEq

def ccMatch (ci : Bool) (cc : CC) (c : Char) : Bool :=
  match cc with
  | .lit p => if ci then p.toLower == c.toLower else p == c
  | .notc p => c != p
  | .any => true
  | .digit => c.isDigit
  | .space => isJsSpace c
  | .digitDot => c.isDigit || c == '.'
  | .digitComma => c.isDigit || c == ','
  | .spaceTab => c == ' ' || c == '\t'

/-- Regex syntax: empty, class, sequence, alternation, counted repetition
(greedy or lazy), and a numbered capturing group. -/
inductive RE where
  | eps
  | cls (cc : CC)
  | seq (a b : RE)
  | alt (a b : RE)
  | rep (a : RE) (lo : Nat) (hi : Option Nat) (lazy : Bool)
  | grp (i : Nat) (a : RE)
  deriving Repr

/-- Captured groups 1 and 2 (the source never uses more). -/
structure Caps where
  g1 : Option Str := none
  g2 : Option Str := none
  deriving Repr, DecidableEq

def setCap (i : Nat) (v : Str) (cp : Caps) : Caps :=
  if i == 1 then { cp with g1 := some v } else { cp with g2 := some v }

/-- Backtracking matcher in continuation style. Returns the first success in
JS preference order (left alternative first, greedy tries the longer
continuation first, lazy the shorter). `fuel` bounds recursion depth only;
all calls here receive ample fuel. -/
def reM (ci : Bool) : Nat → RE → Str → Caps → (Str → Caps → Option (Str × Caps)) →
    Option (Str × Caps)
  | 0, _, _, _, _ => none
  | fuel + 1, re, s, cp, k =>
    match re with
    | .eps => k s cp
    | .cls cc =>
      match s with
      | [] => none
      | c :: t => if ccMatch ci cc c then k t cp else none
    | .seq a b => reM ci fuel a s cp (fun s' cp' => reM ci fuel b s' cp' k)
    | .alt a b =>
      match reM ci fuel a s cp k with
      | some r => some r
      | none => reM ci fuel b s cp k
    | .grp i a =>
      reM ci fuel a s cp (fun s' cp' =>
        k s' (setCap i (s.take (s.length - s'.length)) cp'))
    | .rep a lo hi lz =>
      match lo with
      | n + 1 =>
        reM ci fuel a s cp (fun s' cp' =>
          reM ci fuel (.rep a n (hi.map (· - 1)) lz) s' cp' k)
      | 0 =>
        match hi with
        | some 0 => k s cp
        | _ =>
          if lz then
            match k s cp with
            | some r => some r
            | none =>
              reM ci fuel a s cp (fun s' cp' =>
                if s'.length == s.length then none
                else reM ci fuel (.rep a 0 (hi.map (· - 1)) lz) s' cp' k)
          else
            match reM ci fuel a s cp (fun s' cp' =>
                if s'.length == s.length then none
                else reM ci fuel (.rep a 0 (hi.map (· - 1)) lz) s' cp' k) with
            | some r => some r
            | none => k s cp

/-- Fuel that is ample for every pattern and input used in this file:
recursion depth is bounded by the pattern size plus the number of characters
consumed along one backtracking path. -/
def fuelFor (s : Str) : Nat := 12 * s.length + 1200

/-- Leftmost search: try to match at each position from the left, as JS
`String.match` does. Returns `(before, matched, rest, caps)`. -/
def reSearchAux (ci : Bool) (re : RE) : Str → Str → Option (Str × Str × Str × Caps)
  | acc, s =>
    match reM ci (fuelFor s) re s {} (fun s' cp => some (s', cp)) with
    | some (rest, cp) =>
      some (acc.reverse, s.take (s.length - rest.length), rest, cp)
    | none =>
      match s with
      | [] => none
      | c :: t => reSearchAux ci re (c :: acc) t

def reSearch (ci : Bool) (re : RE) (s : Str) : Option (Str × Str × Str × Caps) :=
  reSearchAux ci re [] s

/-- JS `html.match(re)[1]`: first match's capture group 1. -/
def rxFirst1 (re : RE) (s : Str) : Option Str :=
  (reSearch true re s).map (fun r => r.2.2.2.g1.getD [])

/-- JS `html.matchAll(re)` (the `g` flag): the list of `(m[1], m[2])` for all
non-overlapping matches, scanning left to right. -/
def reMatchAll (ci : Bool) (re : RE) : Nat → Str → List (Str × Str)
  | 0, _ => []
  | fuel + 1, s =>
    match reSearch ci re s with
    | none => []
    | some (_, matched, rest, cp) =>
      (cp.g1.getD [], cp.g2.getD []) ::
        (if matched.isEmpty then
          match rest with
          | [] => []
          | _ :: t => reMatchAll ci re fuel t
        else reMatchAll ci re fuel rest)

/-- JS `s.replace(re, repl)` with the `g` flag and a literal replacement. -/
def reReplaceAll (ci : Bool) (re : RE) (repl : Str) : Nat → Str → Str
  | 0, s => s
  | fuel + 1, s =>
    match reSearch ci re s with
    | none => s
    | some (before, matched, rest, _) =>
      before ++ repl ++
        (if matched.isEmpty then
          match rest with
          | [] => []
          | c :: t => c :: reReplaceAll ci re repl fuel t
        else reReplaceAll ci re repl fuel rest)

/-- Replace all occurrences, with fuel derived from the input. -/
def rxReplace (ci : Bool) (re : RE) (repl : String) (s : Str) : Str :=
  reReplaceAll ci re (strL repl) (s.length + 1) s

/-- All matches, with fuel derived from the input. -/
def rxAll (re : RE) (s : Str) : List (Str × Str) :=
  reMatchAll true re (s.length + 1) s

/-! Regex constructors mirroring the JS syntax. -/

def reSeqs (l : List RE) : RE := l.foldr RE.seq RE.eps

def reAlts : List RE → RE
  | [] => RE.eps
  | [r] => r
  | r :: t => RE.alt r (reAlts t)

/-- A literal string, as a sequence of literal-character classes. -/
def lits (s : String) : RE := reSeqs (s.toList.map (fun c => RE.cls (.lit c)))

def reStar (r : RE) : RE := RE.rep r 0 none false      -- `x*`
def reStarL (r : RE) : RE := RE.rep r 0 none true      -- `x*?`
def rePlus (r : RE) : RE := RE.rep r 1 none false      -- `x+`
def reOpt (r : RE) : RE := RE.rep r 0 (some 1) false   -- `x?`

def notGt : RE := RE.cls (.notc '>')     -- `[^>]`
def notQuote : RE := RE.cls (.notc '"')  -- `[^"]`
def notLt : RE := RE.cls (.notc '<')     -- `[^<]`
def anyC : RE := RE.cls .any             -- `[\s\S]`
def digitC : RE := RE.cls .digit
def spaceC : RE := RE.cls .space

/-! ### JSON values and `JSON.parse`

`JVal` models the values `JSON.parse` can produce. JS numbers are modelled as
rationals (every JSON numeric literal denotes a decimal rational; IEEE-754
rounding is abstracted away, see the header). -/

inductive JVal where
  | null
  | bool (b : Bool)
  | num (q : ℚ)
  | str (s : Str)
  | arr (l : List JVal)
  | obj (m : List (Str × JVal))
  deriving Repr

/-- JS strict equality `x === 'Product'` (with `x` a property lookup that may
be `undefined`): true exactly when the value is that string. -/
def jvStrictEqStr (x : Option JVal) (s : Str) : Bool :=
  match x with
  | some (.str t) => t == s
  | _ => false

/-- JS truthiness of a JSON value: `null`, `false`, `0`, and `""` are falsy. -/
def jvTruthy : JVal → Bool
  | .null => false
  | .bool b => b
  | .num q => q != 0
  | .str s => !s.isEmpty
  | .arr _ => true
  | .obj _ => true

/-- Truthiness of a possibly-absent value (`undefined` is falsy). -/
def truthyO : Option JVal → Bool
  | none => false
  | some v => jvTruthy v

/-- JS property access `v[k]` for JSON values: `none` models `undefined`.
On duplicate keys `JSON.parse` keeps the last occurrence's value. -/
def jGet (v : JVal) (k : Str) : Option JVal :=
  match v with
  | .obj m => ((m.reverse).find? (fun p => p.1 == k)).map (·.2)
  | _ => none

/-- JS optional-chained access `v.a?.b` as used by `jsonLd.offers?.price`. -/
def jGet2 (v : JVal) (k1 k2 : Str) : Option JVal :=
  match jGet v k1 with
  | some w => jGet w k2
  | none => none

/-! #### `JSON.parse`

A strict JSON parser (recursive descent, fuel-bounded). `none` models a
thrown `SyntaxError`, which the source catches and ignores. -/

def digitVal (c : Char) : Nat := c.toNat - '0'.toNat

def hexVal (c : Char) : Option Nat :=
  if c.isDigit then some (digitVal c)
  else if 'a' ≤ c ∧ c ≤ 'f' then some (c.toNat - 'a'.toNat + 10)
  else if 'A' ≤ c ∧ c ≤ 'F' then some (c.toNat - 'A'.toNat + 10)
  else none

def digitsToNat (l : Str) : Nat := l.foldl (fun acc c => acc * 10 + digitVal c) 0

/-- JSON whitespace (as in RFC 8259). -/
def isJsonWs (c : Char) : Bool := c == ' ' || c == '\t' || c == '\n' || c == '\r'

def skipWs (s : Str) : Str := s.dropWhile isJsonWs

/-- Parse a JSON string body after the opening quote. -/
def jparseStr : Nat → Str → Option (Str × Str)
  | 0, _ => none
  | _ + 1, [] => none
  | fuel + 1, c :: t =>
    if c == '"' then some ([], t)
    else if c == '\\' then
      match t with
      | [] => none
      | e :: t' =>
        if e == '"' then (jparseStr fuel t').map (fun r => ('"' :: r.1, r.2))
        else if e == '\\' then (jparseStr fuel t').map (fun r => ('\\' :: r.1, r.2))
        else if e == '/' then (jparseStr fuel t').map (fun r => ('/' :: r.1, r.2))
        else if e == 'b' then (jparseStr fuel t').map (fun r => ('\x08' :: r.1, r.2))
        else if e == 'f' then (jparseStr fuel t').map (fun r => ('\x0c' :: r.1, r.2))
        else if e == 'n' then (jparseStr fuel t').map (fun r => ('\n' :: r.1, r.2))
        else if e == 'r' then (jparseStr fuel t').map (fun r => ('\r' :: r.1, r.2))
        else if e == 't' then (jparseStr fuel t').map (fun r => ('\t' :: r.1, r.2))
        else if e == 'u' then
          match t' with
          | h1 :: h2 :: h3 :: h4 :: t'' =>
            match hexVal h1, hexVal h2, hexVal h3, hexVal h4 with
            | some a, some b, some c', some d =>
              let n := ((a * 16 + b) * 16 + c') * 16 + d
              if h : n.isValidChar then
                (jparseStr fuel t'').map (fun r => (Char.ofNatAux n h :: r.1, r.2))
              else (jparseStr fuel t'').map (fun r => ('�' :: r.1, r.2))
            | _, _, _, _ => none
          | _ => none
        else none
    else if c.toNat < 32 then none
    else (jparseStr fuel t).map (fun r => (c :: r.1, r.2))

/-- Parse a JSON number starting at the current position. -/
def jparseNum (s : Str) : Option (ℚ × Str) :=
  let (neg, s1) := match s with
    | '-' :: t => (true, t)
    | _ => (false, s)
  let ip := s1.takeWhile Char.isDigit
  if ip.isEmpty then none
  else if ip.length > 1 ∧ ip.head? == some '0' then none
  else
    let s2 := s1.drop ip.length
    let (fracDigits, s3) :=
      match s2 with
      | '.' :: t =>
        let fd := t.takeWhile Char.isDigit
        (fd, t.drop fd.length)
      | _ => ([], s2)
    if s2.head? == some '.' ∧ fracDigits.isEmpty then none
    else
      let (expOk, expNeg, expDigits, s4) :=
        match s3 with
        | e :: t =>
          if e == 'e' ∨ e == 'E' then
            let (en, t1) := match t with
              | '-' :: t' => (true, t')
              | '+' :: t' => (false, t')
              | _ => (false, t)
            let ed := t1.takeWhile Char.isDigit
            (!ed.isEmpty, en, ed, t1.drop ed.length)
          else (true, false, [], s3)
        | [] => (true, false, [], s3)
      if !expOk then none
      else
        let mantissa : ℚ := (digitsToNat ip : ℚ) +
          (digitsToNat fracDigits : ℚ) / ((10 : ℚ) ^ fracDigits.length)
        let expo : ℤ := if expNeg then -(digitsToNat expDigits : ℤ)
          else (digitsToNat expDigits : ℤ)
        let mag : ℚ := mantissa * (10 : ℚ) ^ expo
        some (if neg then -mag else mag, s4)

/-- Parsing mode: a single value, the remaining items of an array, or the
remaining entries of an object (single function so the recursion is
structural on the fuel and reduces definitionally). -/
inductive JMode where
  | val
  | arrTail (acc : List JVal)
  | objTail (acc : List (Str × JVal))

/-- Parse one JSON value (or finish an array/object, per the mode); returns
the value and the unconsumed input. -/
def jparse : Nat → JMode → Str → Option (JVal × Str)
  | 0, _, _ => none
  | fuel + 1, .val, s0 =>
    let s := skipWs s0
    match s with
    | [] => none
    | c :: t =>
      if c == '"' then (jparseStr fuel t).map (fun r => (JVal.str r.1, r.2))
      else if c == 't' then
        if (strL "rue").isPrefixOf t then some (.bool true, t.drop 3) else none
      else if c == 'f' then
        if (strL "alse").isPrefixOf t then some (.bool false, t.drop 4) else none
      else if c == 'n' then
        if (strL "ull").isPrefixOf t then some (.null, t.drop 3) else none
      else if c == '[' then
        match skipWs t with
        | ']' :: t' => some (.arr [], t')
        | _ => jparse fuel (.arrTail []) t
      else if c == '{' then
        match skipWs t with
        | '}' :: t' => some (.obj [], t')
        | _ => jparse fuel (.objTail []) t
      else (jparseNum s).map (fun r => (JVal.num r.1, r.2))
  | fuel + 1, .arrTail acc, s =>
    match jparse fuel .val s with
    | none => none
    | some (v, rest) =>
      match skipWs rest with
      | ',' :: rest' => jparse fuel (.arrTail (v :: acc)) rest'
      | ']' :: rest' => some (.arr (v :: acc).reverse, rest')
      | _ => none
  | fuel + 1, .objTail acc, s =>
    match skipWs s with
    | '"' :: t =>
      match jparseStr fuel t with
      | none => none
      | some (key, rest) =>
        match skipWs rest with
        | ':' :: rest' =>
          match jparse fuel .val rest' with
          | none => none
          | some (v, rest'') =>
            match skipWs rest'' with
            | ',' :: r3 => jparse fuel (.objTail ((key, v) :: acc)) r3
            | '}' :: r3 => some (.obj ((key, v) :: acc).reverse, r3)
            | _ => none
        | _ => none
    | _ => none

/-- `JSON.parse`: trailing whitespace allowed, trailing garbage rejected. -/
def jsonParse (s : Str) : Option JVal :=
  match jparse (8 * s.length + 8) .val s with
  | some (v, rest) => if (skipWs rest).isEmpty then some v else none
  | none => none

/-! ### JS value operations used by the parser -/

/-- Decimal digits of a natural number. -/
def natDigits (n : Nat) : Str := Nat.toDigits 10 n

/-- Least `k ≤ fuel` with `den ∣ 10^k`, if any. -/
def pow10Exp (den : Nat) : Nat → Option Nat
  | 0 => if den == 1 then some 0 else none
  | fuel + 1 =>
    match pow10Exp den fuel with
    | some k => some k
    | none => if (10 : Nat) ^ (fuel + 1) % den == 0 then some (fuel + 1) else none

/-- JS number-to-string for the decimal rationals occurring here (integers and
finite decimal fractions; matches `String(x)` for doubles that denote such
values exactly). -/
def qToString (q : ℚ) : Str :=
  let sign : Str := if q < 0 then ['-'] else []
  let n := q.num.natAbs
  let d := q.den
  if d == 1 then sign ++ natDigits n
  else
    match pow10Exp d 64 with
    | some k =>
      let m := n * ((10 : Nat) ^ k / d)
      let ip := m / (10 : Nat) ^ k
      let fp := m % (10 : Nat) ^ k
      let fpDigits := natDigits fp
      let pad := List.replicate (k - fpDigits.length) '0'
      sign ++ natDigits ip ++ ['.'] ++ pad ++ fpDigits
    | none => sign ++ natDigits n ++ ['/'] ++ natDigits d

/-- Conversion target: a single value or an array's element list (single
function so the recursion is structural on the fuel). -/
inductive JSV where
  | one (v : JVal)
  | many (l : List JVal)

/-- JS string conversion, fuel-indexed (the fuel bounds nesting depth and is
ample at every use). Arrays join their elements with commas
(`Array.prototype.toString`); `null` inside an array joins as empty. -/
def jsToStr : Nat → JSV → Str
  | 0, _ => []
  | _ + 1, .one .null => strL "null"
  | _ + 1, .one (.bool true) => strL "true"
  | _ + 1, .one (.bool false) => strL "false"
  | _ + 1, .one (.num q) => qToString q
  | _ + 1, .one (.str s) => s
  | fuel + 1, .one (.arr l) => jsToStr fuel (.many l)
  | _ + 1, .one (.obj _) => strL "[object Object]"
  | _ + 1, .many [] => []
  | fuel + 1, .many [x] =>
    (match x with
     | .null => []
     | v => jsToStr fuel (.one v))
  | fuel + 1, .many (x :: xs) =>
    (match x with
     | .null => []
     | v => jsToStr fuel (.one v)) ++ [','] ++ jsToStr fuel (.many xs)

/-- JS string conversion (template literals, `String(...)`). -/
def jsToString (v : JVal) : Str := jsToStr 1000000 (.one v)

/-- JS `ToNumber` on a trimmed numeric string (no hex/infinity forms, which
never arise here): `""` is `0`, otherwise a full decimal literal or `NaN`. -/
def strToNumberCore (s : Str) : Option ℚ :=
  let (neg, s1) := match s with
    | '-' :: t => (true, t)
    | '+' :: t => (false, t)
    | _ => (false, s)
  let ip := s1.takeWhile Char.isDigit
  let s2 := s1.drop ip.length
  let (fracDigits, s3) :=
    match s2 with
    | '.' :: t =>
      let fd := t.takeWhile Char.isDigit
      (fd, t.drop fd.length)
    | _ => ([], s2)
  if ip.isEmpty ∧ fracDigits.isEmpty then none
  else if !s3.isEmpty then none
  else
    let mag : ℚ := (digitsToNat ip : ℚ) +
      (digitsToNat fracDigits : ℚ) / ((10 : ℚ) ^ fracDigits.length)
    some (if neg then -mag else mag)

/-- JS `ToNumber` of a string: trim, empty is `0`, else a decimal literal. -/
def strToNumber (s : Str) : Option ℚ :=
  let t := jsTrim s
  if t.isEmpty then some 0 else strToNumberCore t

/-- JS `ToNumber` of a value (`none` models `NaN`). Arrays convert via their
string form; plain objects convert to `NaN`. -/
def jsToNumber : JVal → Option ℚ
  | .null => some 0
  | .bool b => some (if b then 1 else 0)
  | .num q => some q
  | .str s => strToNumber s
  | .arr l => strToNumber (jsToString (.arr l))
  | .obj _ => none

/-- JS `v.length`: the length property's value, `none` for `undefined`
(numbers, booleans, objects without a `length` key have no such property). -/
def jvLengthProp : JVal → Option JVal
  | .str s => some (.num s.length)
  | .arr l => some (.num l.length)
  | .obj m => jGet (.obj m) (strL "length")
  | _ => none

/-- JS `x < q` where `x` is a possibly-undefined property value: `undefined`
compares as `NaN` (false); other values coerce via `ToNumber`. -/
def jsLtB (x : Option JVal) (bound : ℚ) : Bool :=
  match x with
  | none => false
  | some v =>
    match jsToNumber v with
    | some q => q < bound
    | none => false

/-- JS `x > q` for a possibly-undefined property value. -/
def jsGtB (x : Option JVal) (bound : ℚ) : Bool :=
  match x with
  | none => false
  | some v =>
    match jsToNumber v with
    | some q => bound < q
    | none => false

/-- JS `n > v` where `n` is a number and `v` a value (`NaN` compares false). -/
def natGtVal (n : Nat) (v : JVal) : Bool :=
  match jsToNumber v with
  | some q => (n : ℚ) > q
  | none => false

/-- JS optional chaining `d?.length` (the values here are never `undefined`,
so only `null` short-circuits). -/
def optLen (d : JVal) : Option JVal :=
  match d with
  | .null => none
  | v => jvLengthProp v

/-- JS `x || 0`. -/
def orZero (x : Option JVal) : JVal :=
  match x with
  | some v => if jvTruthy v then v else .num 0
  | none => .num 0

/-- JS `v.slice(0, n)`: substring for strings, subarray for arrays, and a
thrown `TypeError` for any other receiver. -/
def jsSliceVal (v : JVal) (n : Nat) : Except Unit JVal :=
  match v with
  | .str s => .ok (.str (s.take n))
  | .arr l => .ok (.arr (l.take n))
  | _ => .error ()

/-- Whether `.slice` succeeds on the value (strings and arrays only). -/
def sliceable : JVal → Bool
  | .str _ => true
  | .arr _ => true
  | _ => false

/-! ### The regex strategies of `src/api/fetch.js`

Each definition transcribes one JS regex literal; the original literal is
quoted in the doc comment. All are applied case-insensitively (`/i`) unless
noted. -/

/-- Transcribes `/<script[^>]*type="application\/ld\+json"[^>]*>([\s\S]*?)<\/script>/gi`. -/
def reJsonLd : RE := reSeqs
  [lits "<script", reStar notGt, lits "type=\"application/ld+json\"",
   reStar notGt, lits ">", RE.grp 1 (reStarL anyC), lits "</script>"]

/-- Transcribes `/<meta[^>]*property="og:title"[^>]*content="([^"]+)"/i`. -/
def reOgTitleA : RE := reSeqs
  [lits "<meta", reStar notGt, lits "property=\"og:title\"", reStar notGt,
   lits "content=\"", RE.grp 1 (rePlus notQuote), lits "\""]

/-- Transcribes `/<meta[^>]*content="([^"]+)"[^>]*property="og:title"/i`. -/
def reOgTitleB : RE := reSeqs
  [lits "<meta", reStar notGt, lits "content=\"", RE.grp 1 (rePlus notQuote),
   lits "\"", reStar notGt, lits "property=\"og:title\""]

/-- Transcribes `/<title>([^<]+)<\/title>/i`. -/
def reTitleTag : RE := reSeqs
  [lits "<title>", RE.grp 1 (rePlus notLt), lits "</title>"]

/-- Transcribes `/itemprop="price"[^>]*content="([\d.]+)"/i`. -/
def rePrice1 : RE := reSeqs
  [lits "itemprop=\"price\"", reStar notGt, lits "content=\"",
   RE.grp 1 (rePlus (RE.cls .digitDot)), lits "\""]

/-- Transcribes `/"priceCurrency"\s*:\s*"USD"[\s\S]*?"price"\s*:\s*"?([\d.]+)/i`. -/
def rePrice2 : RE := reSeqs
  [lits "\"priceCurrency\"", reStar spaceC, lits ":", reStar spaceC,
   lits "\"USD\"", reStarL anyC, lits "\"price\"", reStar spaceC, lits ":",
   reStar spaceC, reOpt (RE.cls (.lit '"')), RE.grp 1 (rePlus (RE.cls .digitDot))]

/-- Transcribes `/"price"\s*:\s*"?([\d.]+)"?[\s\S]*?"priceCurrency"\s*:\s*"USD"/i`. -/
def rePrice3 : RE := reSeqs
  [lits "\"price\"", reStar spaceC, lits ":", reStar spaceC,
   reOpt (RE.cls (.lit '"')), RE.grp 1 (rePlus (RE.cls .digitDot)),
   reOpt (RE.cls (.lit '"')), reStarL anyC, lits "\"priceCurrency\"",
   reStar spaceC, lits ":", reStar spaceC, lits "\"USD\""]

/-- Transcribes `/class="[^"]*x-price-primary[^"]*"[^>]*>[\s\S]*?US\s*\$([\d,]+\.?\d*)/i`. -/
def rePrice4 : RE := reSeqs
  [lits "class=\"", reStar notQuote, lits "x-price-primary", reStar notQuote,
   lits "\"", reStar notGt, lits ">", reStarL anyC, lits "US", reStar spaceC,
   lits "$",
   RE.grp 1 (reSeqs [rePlus (RE.cls .digitComma), reOpt (RE.cls (.lit '.')),
     reStar digitC])]

/-- Transcribes `/US\s*\$([\d,]+\.\d{2})\s*<\/span>/i`. -/
def rePrice5 : RE := reSeqs
  [lits "US", reStar spaceC, lits "$",
   RE.grp 1 (reSeqs [rePlus (RE.cls .digitComma), lits ".",
     RE.rep digitC 2 (some 2) false]),
   reStar spaceC, lits "</span>"]

/-- Transcribes `/<span[^>]*>\s*US\s*\$([\d,]+\.\d{2})\s*<\/span>/i`. -/
def rePrice6 : RE := reSeqs
  [lits "<span", reStar notGt, lits ">", reStar spaceC, lits "US",
   reStar spaceC, lits "$",
   RE.grp 1 (reSeqs [rePlus (RE.cls .digitComma), lits ".",
     RE.rep digitC 2 (some 2) false]),
   reStar spaceC, lits "</span>"]

/-- The ordered price strategies (`pricePatterns` in the source). -/
def pricePatterns : List RE :=
  [rePrice1, rePrice2, rePrice3, rePrice4, rePrice5, rePrice6]

/-- Transcribes `/"conditionDisplayName"\s*:\s*"([^"]+)"/i`. -/
def reCond1 : RE := reSeqs
  [lits "\"conditionDisplayName\"", reStar spaceC, lits ":", reStar spaceC,
   lits "\"", RE.grp 1 (rePlus notQuote), lits "\""]

/-- Transcribes `/Condition:<\/span>[\s\S]*?<span[^>]*>([^<]+)<\/span>/i`. -/
def reCond2 : RE := reSeqs
  [lits "Condition:</span>", reStarL anyC, lits "<span", reStar notGt,
   lits ">", RE.grp 1 (rePlus notLt), lits "</span>"]

/-- Transcribes `/itemCondition"[^>]*>([^<]+)</i`. -/
def reCond3 : RE := reSeqs
  [lits "itemCondition\"", reStar notGt, lits ">", RE.grp 1 (rePlus notLt),
   lits "<"]

/-- Transcribes
`/<span[^>]*class="[^"]*ux-icon-text[^"]*"[^>]*>([^<]*(?:New|Pre-owned|Used)[^<]*)<\/span>/i`. -/
def reCond4 : RE := reSeqs
  [lits "<span", reStar notGt, lits "class=\"", reStar notQuote,
   lits "ux-icon-text", reStar notQuote, lits "\"", reStar notGt, lits ">",
   RE.grp 1 (reSeqs [reStar notLt,
     reAlts [lits "New", lits "Pre-owned", lits "Used"], reStar notLt]),
   lits "</span>"]

/-- The ordered condition strategies (`conditionPatterns` in the source). -/
def conditionPatterns : List RE := [reCond1, reCond2, reCond3, reCond4]

/-- Transcribes `/<span[^>]*class="[^"]*ux-textspans[^"]*"[^>]*>([^<]{1,30})<\/span>[\s\S]{0,200}?<span[^>]*class="[^"]*ux-textspans--BOLD[^"]*"[^>]*>([^<]+)<\/span>/gi`. -/
def reSpecA : RE := reSeqs
  [lits "<span", reStar notGt, lits "class=\"", reStar notQuote,
   lits "ux-textspans", reStar notQuote, lits "\"", reStar notGt, lits ">",
   RE.grp 1 (RE.rep notLt 1 (some 30) false), lits "</span>",
   RE.rep anyC 0 (some 200) true,
   lits "<span", reStar notGt, lits "class=\"", reStar notQuote,
   lits "ux-textspans--BOLD", reStar notQuote, lits "\"", reStar notGt,
   lits ">", RE.grp 2 (rePlus notLt), lits "</span>"]

/-- Transcribes `/<dt[^>]*>([^<]+)<\/dt>\s*<dd[^>]*>([^<]+)<\/dd>/gi`. -/
def reSpecB : RE := reSeqs
  [lits "<dt", reStar notGt, lits ">", RE.grp 1 (rePlus notLt), lits "</dt>",
   reStar spaceC, lits "<dd", reStar notGt, lits ">", RE.grp 2 (rePlus notLt),
   lits "</dd>"]

/-- Transcribes the dynamic
`` new RegExp(`>${spec}:?<[^>]*>[\s\S]*?<span[^>]*class="[^"]*BOLD[^"]*"[^>]*>([^<]+)`, 'i') ``. -/
def commonReA (spec : String) : RE := reSeqs
  [lits ">", lits spec, reOpt (RE.cls (.lit ':')), lits "<", reStar notGt,
   lits ">", reStarL anyC, lits "<span", reStar notGt, lits "class=\"",
   reStar notQuote, lits "BOLD", reStar notQuote, lits "\"", reStar notGt,
   lits ">", RE.grp 1 (rePlus notLt)]

/-- Transcribes the dynamic `` new RegExp(`"${spec}"\s*:\s*"([^"]+)"`, 'i') ``. -/
def commonReB (spec : String) : RE := reSeqs
  [lits "\"", lits spec, lits "\"", reStar spaceC, lits ":", reStar spaceC,
   lits "\"", RE.grp 1 (rePlus notQuote), lits "\""]

/-- The `commonSpecs` vocabulary of `src/api/fetch.js` line 163. -/
def commonSpecs : List String :=
  ["Size", "Brand", "Color", "Material", "Style", "Type", "Pattern",
   "Sleeve Length", "Fit", "Department"]

/-- Transcribes `/Item description from the seller[\s\S]*?<div[^>]*class="[^"]*"[^>]*>([\s\S]{20,}?)<\/div>[\s\S]*?(?:Shipping|About this item|Report)/i`. -/
def reDesc1 : RE := reSeqs
  [lits "Item description from the seller", reStarL anyC, lits "<div",
   reStar notGt, lits "class=\"", reStar notQuote, lits "\"", reStar notGt,
   lits ">", RE.grp 1 (RE.rep anyC 20 none true), lits "</div>",
   reStarL anyC,
   reAlts [lits "Shipping", lits "About this item", lits "Report"]]

/-- Transcribes `/<div[^>]*id="viTabs_0_is"[^>]*>([\s\S]*?)<\/div>/i`. -/
def reDesc2 : RE := reSeqs
  [lits "<div", reStar notGt, lits "id=\"viTabs_0_is\"", reStar notGt,
   lits ">", RE.grp 1 (reStarL anyC), lits "</div>"]

/-- Transcribes `/<div[^>]*class="[^"]*item-description[^"]*"[^>]*>([\s\S]*?)<\/div>/i`. -/
def reDesc3 : RE := reSeqs
  [lits "<div", reStar notGt, lits "class=\"", reStar notQuote,
   lits "item-description", reStar notQuote, lits "\"", reStar notGt,
   lits ">", RE.grp 1 (reStarL anyC), lits "</div>"]

/-- Transcribes `/<div[^>]*data-testid="d-item-description"[^>]*>([\s\S]*?)<\/div>/i`. -/
def reDesc4 : RE := reSeqs
  [lits "<div", reStar notGt, lits "data-testid=\"d-item-description\"",
   reStar notGt, lits ">", RE.grp 1 (reStarL anyC), lits "</div>"]

/-- Transcribes `/descriptionModule[\s\S]*?<div[^>]*>([\s\S]{50,}?)<\/div>/i`. -/
def reDesc5 : RE := reSeqs
  [lits "descriptionModule", reStarL anyC, lits "<div", reStar notGt,
   lits ">", RE.grp 1 (RE.rep anyC 50 none true), lits "</div>"]

/-- The ordered description strategies (`descPatterns` in the source). -/
def descPatterns : List RE := [reDesc1, reDesc2, reDesc3, reDesc4, reDesc5]

/-- Transcribes `/<style[^>]*>[\s\S]*?<\/style>/gi`. -/
def reStyleBlock : RE := reSeqs
  [lits "<style", reStar notGt, lits ">", reStarL anyC, lits "</style>"]

/-- Transcribes `/<script[^>]*>[\s\S]*?<\/script>/gi`. -/
def reScriptBlock : RE := reSeqs
  [lits "<script", reStar notGt, lits ">", reStarL anyC, lits "</script>"]

/-- Transcribes `/<[^>]+>/g`. -/
def reTag : RE := reSeqs [lits "<", rePlus notGt, lits ">"]

/-- Transcribes `/\s+/g`. -/
def reWsPlus : RE := rePlus spaceC

/-! ### The parser pipeline of `src/api/fetch.js` (`parseEbayListing`) -/

/-- The record returned by `parseEbayListing`. `title` and `description` are
JS variables that can receive raw JSON-LD values, hence `JVal`; `price` and
`condition` only ever receive strings. -/
structure Listing where
  title : JVal
  price : Str
  condition : Str
  specifics : List (Str × JVal)
  description : JVal
  summary : Str
  deriving Repr

/-- JS object keyed assignment `m[k] = v`: update in place or append.
(The exotic `__proto__` key, which a JS object literal would swallow, never
carries a claim here and is modelled as an ordinary key.) -/
def upsert (m : List (Str × JVal)) (k : Str) (v : JVal) : List (Str × JVal) :=
  match m with
  | [] => [(k, v)]
  | (k', v') :: t => if k' == k then (k', v) :: t else (k', v') :: upsert t k v

/-- JS keyed lookup `m[k]` (`none` models `undefined`). -/
def getKey (m : List (Str × JVal)) (k : Str) : Option JVal :=
  (m.find? (fun p => p.1 == k)).map (·.2)

/-- Accumulator of the JSON-LD scan (the four variables it can set). -/
structure LdState where
  title : JVal
  price : Str
  specifics : List (Str × JVal)
  description : JVal
  deriving Repr

def ldInit : LdState := ⟨.str [], [], [], .str []⟩

/-- One iteration of the JSON-LD loop (`src/api/fetch.js` lines 66-76): parse
the block, and on the Product/name guard copy name, offer price (stringified),
brand name, and description; a parse failure is skipped. -/
def jsonLdStep (st : LdState) (block : Str) : LdState :=
  match jsonParse block with
  | none => st
  | some j =>
    if jvStrictEqStr (jGet j (strL "@type")) (strL "Product")
        || truthyO (jGet j (strL "name")) then
      let st1 := match jGet j (strL "name") with
        | some v => if jvTruthy v then { st with title := v } else st
        | none => st
      let st2 := match jGet2 j (strL "offers") (strL "price") with
        | some v => if jvTruthy v then { st1 with price := jsToString v } else st1
        | none => st1
      let st3 := match jGet2 j (strL "brand") (strL "name") with
        | some v =>
          if jvTruthy v then
            { st2 with specifics := upsert st2.specifics (strL "Brand") v }
          else st2
        | none => st2
      match jGet j (strL "description") with
      | some v => if jvTruthy v then { st3 with description := v } else st3
      | none => st3
    else st

/-- The whole JSON-LD scan: all `application/ld+json` blocks in order. -/
def jsonLdScan (html : Str) : LdState :=
  ((rxAll reJsonLd html).map (·.1)).foldl jsonLdStep ldInit

/-- JS `title.replace(/ \| eBay$/, '')` (case-sensitive, suffix only). -/
def stripEbaySuffix (s : Str) : Str :=
  if (strL " | eBay").isSuffixOf s then s.take (s.length - 7) else s

/-- JS `key.replace(/:$/, '')`. -/
def stripColonSuffix (s : Str) : Str :=
  if s.getLast? == some ':' then s.dropLast else s

/-- JS `s.replace(/,/g, '')`. -/
def stripCommas (s : Str) : Str := s.filter (fun c => !(c == ','))

/-- JS `parseFloat` restricted to the digits-and-dots strings produced by the
price captures: value of the longest valid decimal prefix, `none` for `NaN`. -/
def parseFloatQ (s : Str) : Option ℚ :=
  let ip := s.takeWhile Char.isDigit
  let rest := s.drop ip.length
  match rest with
  | '.' :: r2 =>
    let fd := r2.takeWhile Char.isDigit
    if ip.isEmpty ∧ fd.isEmpty then none
    else some ((digitsToNat ip : ℚ) + (digitsToNat fd : ℚ) / ((10 : ℚ) ^ fd.length))
  | _ => if ip.isEmpty then none else some (digitsToNat ip : ℚ)

/-- Title strategies (`src/api/fetch.js` lines 78-93): og:title meta (either
attribute order), then the `<title>` element; each strips the
`" | eBay"` suffix and trims, and runs only while the title is falsy. -/
def titlePhase (html : Str) (t0 : JVal) : JVal :=
  let t1 :=
    if jvTruthy t0 then t0
    else
      match rxFirst1 reOgTitleA html with
      | some c => .str (jsTrim (stripEbaySuffix c))
      | none =>
        match rxFirst1 reOgTitleB html with
        | some c => .str (jsTrim (stripEbaySuffix c))
        | none => t0
  if jvTruthy t1 then t1
  else
    match rxFirst1 reTitleTag html with
    | some c => .str (jsTrim (stripEbaySuffix c))
    | none => t1

/-- The price strategy loop (`src/api/fetch.js` lines 108-118): first pattern
whose comma-stripped capture parses to a value in `(0, 50000)` wins; a
candidate failing the bound falls through to the next pattern. -/
def priceLoop : List RE → Str → Str
  | [], _ => []
  | p :: ps, html =>
    match rxFirst1 p html with
    | some cap =>
      let stored := stripCommas cap
      match parseFloatQ stored with
      | some v => if 0 < v ∧ v < 50000 then stored else priceLoop ps html
      | none => priceLoop ps html
    | none => priceLoop ps html

/-- Price phase: the loop runs only when the JSON-LD scan left price empty
(`if (!price)`). -/
def pricePhase (html : Str) (p0 : Str) : Str :=
  if p0.isEmpty then priceLoop pricePatterns html else p0

/-- The condition strategy loop (`src/api/fetch.js` lines 130-136): first
pattern whose capture trims to a non-empty string wins. -/
def conditionLoop : List RE → Str → Str
  | [], _ => []
  | p :: ps, html =>
    match rxFirst1 p html with
    | some cap => if (jsTrim cap).isEmpty then conditionLoop ps html else jsTrim cap
    | none => conditionLoop ps html

def conditionPhase (html : Str) : Str := conditionLoop conditionPatterns html

/-- The navigational-label filter `/^(See|View|Read|Show|More|Less|\d)/i`. -/
def navKeyTest (s : Str) : Bool :=
  startsWithCI (strL "See") s || startsWithCI (strL "View") s
    || startsWithCI (strL "Read") s || startsWithCI (strL "Show") s
    || startsWithCI (strL "More") s || startsWithCI (strL "Less") s
    || (match s with | c :: _ => c.isDigit | [] => false)

/-- The navigational-value filter `/^(See|View|Read|Show)/i`. -/
def navValTest (s : Str) : Bool :=
  startsWithCI (strL "See") s || startsWithCI (strL "View") s
    || startsWithCI (strL "Read") s || startsWithCI (strL "Show") s

/-- The generic label/value acceptance filter of `src/api/fetch.js`
lines 152-156. -/
def goodSpecPair (key value : Str) : Bool :=
  !key.isEmpty && !value.isEmpty && key.length < 25 && value.length < 100
    && !navKeyTest key && !navValTest value

/-- One stored pair of the generic label/value scan (lines 148-159). -/
def specScanStep (specs : List (Str × JVal)) (m : Str × Str) : List (Str × JVal) :=
  let key := jsTrim (stripColonSuffix m.1)
  let value := jsTrim m.2
  if goodSpecPair key value then upsert specs key (.str value) else specs

/-- The targeted common-attribute lookup (lines 163-172): for each vocabulary
word not already present (JS truthiness), try the two dynamic patterns and
store the trimmed capture unvalidated. -/
def commonSpecStep (html : Str) (specs : List (Str × JVal)) (name : String) :
    List (Str × JVal) :=
  if truthyO (getKey specs (strL name)) then specs
  else
    match rxFirst1 (commonReA name) html with
    | some c => upsert specs (strL name) (.str (jsTrim c))
    | none =>
      match rxFirst1 (commonReB name) html with
      | some c => upsert specs (strL name) (.str (jsTrim c))
      | none => specs

/-- The whole specifics phase: the two generic scans (both applied, in
pattern order), then the targeted lookups. -/
def specificsPhase (html : Str) (s0 : List (Str × JVal)) : List (Str × JVal) :=
  let s1 := (rxAll reSpecA html ++ rxAll reSpecB html).foldl specScanStep s0
  commonSpecs.foldl (commonSpecStep html) s1

/-- The description cleaning chain of `src/api/fetch.js` lines 188-199. -/
def cleanDesc (s : Str) : Str :=
  let s := rxReplace true reStyleBlock "" s
  let s := rxReplace true reScriptBlock "" s
  let s := rxReplace false reTag " " s
  let s := rxReplace false (lits "&nbsp;") " " s
  let s := rxReplace false (lits "&amp;") "&" s
  let s := rxReplace false (lits "&quot;") "\"" s
  let s := rxReplace false (lits "&#39;") "\x27" s
  let s := rxReplace false (lits "&lt;") "<" s
  let s := rxReplace false (lits "&gt;") ">" s
  let s := rxReplace false reWsPlus " " s
  jsTrim s

/-- One description strategy (lines 185-205): non-empty capture, cleaned;
kept only if longer than 20 chars and longer than the current candidate. -/
def descStep (html : Str) (d : JVal) (p : RE) : JVal :=
  match rxFirst1 p html with
  | some raw =>
    if raw.isEmpty then d
    else
      let cleaned := cleanDesc raw
      if cleaned.length > 20 ∧ natGtVal cleaned.length (orZero (optLen d))
      then .str cleaned else d
  | none => d

/-- The description phase: the strategies run only when the JSON-LD
description is falsy or shorter than 20 (`!description || description.length < 20`). -/
def descPhase (html : Str) (d0 : JVal) : JVal :=
  if !jvTruthy d0 || jsLtB (jvLengthProp d0) 20 then
    descPatterns.foldl (descStep html) d0
  else d0

/-- The fixed fallback sentence of `src/api/fetch.js` line 229. -/
def fallbackMsg : Str :=
  strL "Could not parse listing details. Please paste the listing content manually."

/-- The manual-entry note of `src/api/fetch.js` line 225. -/
def manualNoteFJ : Str :=
  strL "\n(Seller description not found - it may be in an iframe. You can paste it manually below.)"

/-- The field lines of the summary (`src/api/fetch.js` lines 209-219): the
`Title:`/`Price:`/`Condition:` lines and the `Item Specifics:` block. -/
def summaryBase (title : JVal) (price condition : Str)
    (specifics : List (Str × JVal)) : Str :=
  (if jvTruthy title then strL "Title: " ++ jsToString title ++ strL "\n" else [])
  ++ (if price.isEmpty then [] else strL "Price: $" ++ price ++ strL "\n")
  ++ (if condition.isEmpty then [] else strL "Condition: " ++ condition ++ strL "\n")
  ++ (if specifics.isEmpty then []
      else strL "\nItem Specifics:\n" ++
        (specifics.map (fun p => p.1 ++ strL ": " ++ jsToString p.2 ++ strL "\n")).flatten)

/-- The summary builder of `src/api/fetch.js` lines 209-230. Throws (like the
JS `TypeError`) when `description.slice` is reached on a non-sliceable value. -/
def summaryPhase (title : JVal) (price condition : Str)
    (specifics : List (Str × JVal)) (description : JVal) : Except Unit Str :=
  match
    (if jvTruthy description && jsGtB (jvLengthProp description) 20 then
      (jsSliceVal description 3000).map (fun sl =>
        summaryBase title price condition specifics ++
          strL "\nSeller Description:\n" ++ jsToString sl ++
          (if jsGtB (jvLengthProp description) 3000 then strL "..." else []))
    else .ok (summaryBase title price condition specifics ++ manualNoteFJ)) with
  | .error e => .error e
  | .ok s2 => .ok (if !jvTruthy title && price.isEmpty then fallbackMsg else s2)

/-- The full `parseEbayListing` of `src/api/fetch.js` (lines 57-240): JSON-LD
scan, then the gap-filling strategy phases, the summary, and the final record
whose description is `(description || '').slice(0, 3000)`. An `Except.error`
models the function throwing (which the handler turns into a 500 response). -/
def parseEbayListing (html : Str) : Except Unit Listing :=
  let st := jsonLdScan html
  let title := titlePhase html st.title
  let price := pricePhase html st.price
  let condition := conditionPhase html
  let specifics := specificsPhase html st.specifics
  let description := descPhase html st.description
  match summaryPhase title price condition specifics description with
  | .error e => .error e
  | .ok summary =>
    match jsSliceVal (if jvTruthy description then description else .str []) 3000 with
    | .error e => .error e
    | .ok descF => .ok ⟨title, price, condition, specifics, descF, summary⟩

/-! ### The secondary sub-document pass of the `src/STATUS.md` handler

`src/STATUS.md` (lines 149-467) embeds the sibling generation of the same
endpoint, the one that issues a second fetch for the description iframe.
The functions below transcribe its `extractDescriptionIframeUrl`,
`parseIframeDescription`, `buildSummary`, and the second-pass block of its
`handler` (lines 198-222). The second pass is parameterized by the listing
produced by the first pass and by the outcome of the iframe fetch
(`Except.error` models a thrown network error, `(false, _)` a non-ok
response), since those come from the outside world. -/

/-- Transcribes `/iframe[^>]*src="(https?:\/\/vi\.vipr\.ebaydesc\.com[^"]+)"/i`. -/
def reIfr1 : RE := reSeqs
  [lits "iframe", reStar notGt, lits "src=\"",
   RE.grp 1 (reSeqs [lits "http", reOpt (RE.cls (.lit 's')),
     lits "://vi.vipr.ebaydesc.com", rePlus notQuote]), lits "\""]

/-- Transcribes `/iframe[^>]*src="(https?:\/\/[^"]*ebaydesc[^"]+)"/i`. -/
def reIfr2 : RE := reSeqs
  [lits "iframe", reStar notGt, lits "src=\"",
   RE.grp 1 (reSeqs [lits "http", reOpt (RE.cls (.lit 's')), lits "://",
     reStar notQuote, lits "ebaydesc", rePlus notQuote]), lits "\""]

/-- Transcribes `/"descriptionUrl"\s*:\s*"([^"]+)"/i`. -/
def reIfr3 : RE := reSeqs
  [lits "\"descriptionUrl\"", reStar spaceC, lits ":", reStar spaceC,
   lits "\"", RE.grp 1 (rePlus notQuote), lits "\""]

/-- Transcribes `/data-src="(https?:\/\/vi\.vipr\.ebaydesc\.com[^"]+)"/i`. -/
def reIfr4 : RE := reSeqs
  [lits "data-src=\"",
   RE.grp 1 (reSeqs [lits "http", reOpt (RE.cls (.lit 's')),
     lits "://vi.vipr.ebaydesc.com", rePlus notQuote]), lits "\""]

/-- Transcribes `/"iframeUrl"\s*:\s*"([^"]+ebaydesc[^"]+)"/i`. -/
def reIfr5 : RE := reSeqs
  [lits "\"iframeUrl\"", reStar spaceC, lits ":", reStar spaceC, lits "\"",
   RE.grp 1 (reSeqs [rePlus notQuote, lits "ebaydesc", rePlus notQuote]),
   lits "\""]

def iframeUrlPatterns : List RE := [reIfr1, reIfr2, reIfr3, reIfr4, reIfr5]

/-- The URL unescaping of `src/STATUS.md` line 245:
`.replace(/\\u002F/g, '/').replace(/\\/g, '')`. -/
def unescapeIframeUrl (s : Str) : Str :=
  rxReplace false (lits "\\") "" (rxReplace false (lits "\\u002F") "/" s)

/-- `extractDescriptionIframeUrl` of `src/STATUS.md` lines 228-250. -/
def extractDescriptionIframeUrl (html : Str) : Option Str :=
  go iframeUrlPatterns
where
  go : List RE → Option Str
    | [] => none
    | p :: ps =>
      match rxFirst1 p html with
      | some c => some (unescapeIframeUrl c)
      | none => go ps

/-- Transcribes `/\n\s*\n/g` (collapse blank lines). -/
def reNlWsNl : RE := reSeqs [lits "\n", reStar spaceC, lits "\n"]

/-- Transcribes `/[ \t]+/g`. -/
def reSpaceTabPlus : RE := rePlus (RE.cls .spaceTab)

/-- Split on newline characters (JS `text.split('\n')`). -/
def splitNl (s : Str) : List Str :=
  go s [] []
where
  go : Str → Str → List Str → List Str
    | [], cur, acc => (cur.reverse :: acc).reverse
    | c :: t, cur, acc =>
      if c == '\n' then go t [] (cur.reverse :: acc) else go t (c :: cur) acc

/-- `parseIframeDescription` of `src/STATUS.md` lines 252-275: strip
style/script blocks, turn tags into newlines, decode entities, collapse blank
lines and runs of spaces/tabs, trim, then drop empty lines and re-join. -/
def parseIframeDescription (html : Str) : Str :=
  let text := rxReplace true reStyleBlock "" html
  let text := rxReplace true reScriptBlock "" text
  let text := rxReplace false reTag "\n" text
  let text := rxReplace false (lits "&nbsp;") " " text
  let text := rxReplace false (lits "&amp;") "&" text
  let text := rxReplace false (lits "&quot;") "\"" text
  let text := rxReplace false (lits "&#39;") "\x27" text
  let text := rxReplace false (lits "&lt;") "<" text
  let text := rxReplace false (lits "&gt;") ">" text
  let text := rxReplace false reNlWsNl "\n" text
  let text := rxReplace false reSpaceTabPlus " " text
  let text := jsTrim text
  let lines := ((splitNl text).map jsTrim).filter (fun l => !l.isEmpty)
  List.intercalate (strL "\n") lines

/-- The manual-entry note of the `src/STATUS.md` generation (line 459; its
wording differs from the `src/api/fetch.js` one). -/
def manualNoteStatus : Str :=
  strL "\n(Seller description not found - it may be in an iframe. Please paste it manually below.)"

/-- `buildSummary` of `src/STATUS.md` lines 442-467 (it shares the field
lines with the `src/api/fetch.js` builder and differs in the note text). -/
def buildSummaryStatus (l : Listing) : Except Unit Str :=
  match
    (if jvTruthy l.description && jsGtB (jvLengthProp l.description) 20 then
      (jsSliceVal l.description 3000).map (fun sl =>
        summaryBase l.title l.price l.condition l.specifics ++
          strL "\nSeller Description:\n" ++ jsToString sl ++
          (if jsGtB (jvLengthProp l.description) 3000 then strL "..." else []))
    else .ok (summaryBase l.title l.price l.condition l.specifics ++ manualNoteStatus)) with
  | .error e => .error e
  | .ok s2 => .ok (if !jvTruthy l.title && l.price.isEmpty then fallbackMsg else s2)

/-- The outcome of the iframe fetch: a thrown network error, or a response
with its `ok` flag and body text. -/
abbrev FetchResult := Except Unit (Bool × Str)

/-- Whether the fetch failed (threw, or returned a non-ok response). -/
def fetchFailed : FetchResult → Bool
  | .error _ => true
  | .ok (okFlag, _) => !okFlag

/-- The second-pass block of the `src/STATUS.md` handler (lines 198-222): if
the first-pass description is missing or shorter than 50, look for an iframe
URL; if found, fetch it; on success replace the description when the iframe
text is non-empty and strictly longer, and rebuild the summary; any fetch
failure is swallowed (`catch` / `if (iframeResponse.ok)`). -/
def secondPass (listing : Listing) (html : Str) (ifr : FetchResult) :
    Except Unit Listing :=
  if !jvTruthy listing.description || jsLtB (jvLengthProp listing.description) 50 then
    match extractDescriptionIframeUrl html with
    | some _ =>
      match ifr with
      | .error _ => .ok listing
      | .ok (okFlag, body) =>
        if okFlag then
          let iframeDescription := parseIframeDescription body
          if !iframeDescription.isEmpty
              && natGtVal iframeDescription.length (orZero (optLen listing.description)) then
            let l2 := { listing with description := .str iframeDescription }
            match buildSummaryStatus l2 with
            | .error e => .error e
            | .ok s => .ok { l2 with summary := s }
          else .ok listing
        else .ok listing
    | none => .ok listing
  else .ok listing

/-! ### The request handler of `src/api/fetch.js` (lines 1-55) -/

/-- What the handler does before (or instead of) calling the network:
the CORS preflight, the three input-validation rejections, the missing-key
rejection, or the start of the ScrapingBee fetch. -/
inductive HandlerOutcome where
  | preflight
  | missingUrl
  | unsupportedSource
  | invalidUrl
  | apiKeyMissing
  | fetchIssued (url : Str)
  deriving Repr, DecidableEq

/-- Hostname of a parsed URL, for the simple absolute http(s) URLs exercised
here: scheme (case-insensitive), then the authority up to `/`, `:`, `?` or
`#`, lowercased — as `new URL(u).hostname` yields for such URLs. Other
shapes are modelled as a parse failure (`Invalid URL`). -/
def parseUrlHostname (url : Str) : Option Str :=
  let low := url.map Char.toLower
  if (strL "https://").isPrefixOf low then hostOf (low.drop 8)
  else if (strL "http://").isPrefixOf low then hostOf (low.drop 7)
  else none
where
  hostOf (s : Str) : Option Str :=
    let h := s.takeWhile (fun c => !(c == '/' || c == ':' || c == '?' || c == '#'))
    if h.isEmpty then none else some h

/-- The allow-list of `src/api/fetch.js` line 18. -/
def allowedDomains : List Str :=
  [strL "ebay.com", strL "www.ebay.com", strL "ebay.co.uk", strL "www.ebay.co.uk"]

/-- The handler's pre-network control flow (`src/api/fetch.js` lines 7-39):
OPTIONS preflight, missing `url`, the `hostname.endsWith` allow-list check,
URL-parse failure, missing API key, and otherwise the ScrapingBee fetch. -/
def handler (method : String) (urlParam : Option Str) (apiKeyConfigured : Bool) :
    HandlerOutcome :=
  if method == "OPTIONS" then .preflight
  else
    match urlParam with
    | none => .missingUrl
    | some url =>
      match parseUrlHostname url with
      | none => .invalidUrl
      | some host =>
        if allowedDomains.any (fun d => d.isSuffixOf host) then
          if apiKeyConfigured then .fetchIssued url else .apiKeyMissing
        else .unsupportedSource

/-- Modelled from the spec: the allow-list membership the claims describe —
"exact match or suffix match on the registrable domain", i.e. the host is one
of the allow-listed domains or ends with `"." ++ d` for one of them. This is
the spec-side notion, to be compared with the code's plain
`hostname.endsWith(d)` check. -/
def specAllowsHost (host : Str) : Bool :=
  allowedDomains.any (fun d => host == d || ('.' :: d).isSuffixOf host)

/-! ### The earlier generation in `src/unnamed/part_001`

`src/unnamed/part_001` holds an earlier generation of the same endpoint
(`handler` and `parseEbayListing`, lines 57-197). Its parser differs from
`src/api/fetch.js`: the JSON-LD offer price is stored raw (not stringified,
and possibly `undefined`), there is no price sanity bound and no targeted
common-attribute lookup, the specifics section is located with a lookahead
regex, the title strategies are the og:title meta and an `x-item-title`
heading, and the final fallback fires only when the built summary is empty or
shorter than 50 characters. Functions of that generation carry a `p1`/`P1`
prefix; regexes identical to fetch.js ones (`reJsonLd`, `reOgTitleA`,
`rePrice1`, `reCond1`, `reTag`, `reWsPlus`) are shared. -/

/-- JS `s.match(re)[1]` for a regex without the `i` flag. -/
def rxFirst1Cs (re : RE) (s : Str) : Option Str :=
  (reSearch false re s).map (fun r => r.2.2.2.g1.getD [])

/-- Transcribes `/<h1[^>]*class="[^"]*x-item-title[^"]*"[^>]*>([\s\S]*?)<\/h1>/i`. -/
def reP1H1 : RE := reSeqs
  [lits "<h1", reStar notGt, lits "class=\"", reStar notQuote,
   lits "x-item-title", reStar notQuote, lits "\"", reStar notGt, lits ">",
   RE.grp 1 (reStarL anyC), lits "</h1>"]

/-- Transcribes `/class="[^"]*x-price-primary[^"]*"[^>]*>[\s\S]*?<span[^>]*>([\s\S]*?)<\/span>/i`. -/
def reP1PriceContainer : RE := reSeqs
  [lits "class=\"", reStar notQuote, lits "x-price-primary", reStar notQuote,
   lits "\"", reStar notGt, lits ">", reStarL anyC, lits "<span",
   reStar notGt, lits ">", RE.grp 1 (reStarL anyC), lits "</span>"]

/-- Transcribes `/\$?([\d,]+\.?\d*)/` (no flags). -/
def reP1PriceNum : RE := reSeqs
  [reOpt (RE.cls (.lit '$')),
   RE.grp 1 (reSeqs [rePlus (RE.cls .digitComma), reOpt (RE.cls (.lit '.')),
     reStar digitC])]

/-- Transcribes
`/data-testid="ux-labels-values[^"]*condition[^"]*"[^>]*>[\s\S]*?<span[^>]*class="[^"]*ux-textspans--BOLD[^"]*"[^>]*>([^<]+)/i`. -/
def reP1Cond1 : RE := reSeqs
  [lits "data-testid=\"ux-labels-values", reStar notQuote, lits "condition",
   reStar notQuote, lits "\"", reStar notGt, lits ">", reStarL anyC,
   lits "<span", reStar notGt, lits "class=\"", reStar notQuote,
   lits "ux-textspans--BOLD", reStar notQuote, lits "\"", reStar notGt,
   lits ">", RE.grp 1 (rePlus notLt)]

/-- Transcribes `/Condition:[\s\S]*?<span[^>]*>([^<]+)<\/span>/i`. -/
def reP1Cond3 : RE := reSeqs
  [lits "Condition:", reStarL anyC, lits "<span", reStar notGt, lits ">",
   RE.grp 1 (rePlus notLt), lits "</span>"]

/-- Transcribes the lookahead body `<div[^>]*class="[^"]*vim` of the
specifics-section regex. -/
def reP1VimDiv : RE := reSeqs
  [lits "<div", reStar notGt, lits "class=\"", reStar notQuote, lits "vim"]

/-- Anchored test: does `re` match some prefix of `s`? (the zero-width
lookahead `(?=...)` used by the specifics-section regex below). -/
def reMatchesAt (ci : Bool) (re : RE) (s : Str) : Bool :=
  (reM ci (fuelFor s) re s {} (fun t cp => some (t, cp))).isSome

/-- The shortest `[\s\S]*?` gap before a position where the lookahead
matches: the consumed characters, or `none` if no such position exists. -/
def p1GapTo (re : RE) : Str → Option Str
  | [] => if reMatchesAt true re [] then some [] else none
  | c :: t =>
    if reMatchesAt true re (c :: t) then some []
    else (p1GapTo re t).map (fun g => c :: g)

/-- Transcribes `html.match(/About this item[\s\S]*?(?=<div[^>]*class="[^"]*vim)/i)`
(match `[0]`): the leftmost case-insensitive occurrence of the 15-character
literal, extended by the shortest gap after which the lookahead
`<div[^>]*class="[^"]*vim` matches; the lookahead consumes nothing. If no
lookahead position exists after the first occurrence of the literal then none
exists after a later one (the candidate positions only shrink), so the whole
regex fails. -/
def p1SpecificsSection (html : Str) : Option Str :=
  match html with
  | [] => none
  | _ :: t =>
    if startsWithCI (strL "About this item") html then
      (p1GapTo reP1VimDiv (html.drop 15)).map (fun g => html.take 15 ++ g)
    else p1SpecificsSection t

/-- Transcribes
`/ux-labels-values__labels[^>]*>[\s\S]*?<span[^>]*>([^<]+)<\/span>[\s\S]*?ux-labels-values__values[^>]*>[\s\S]*?<span[^>]*>([^<]+)<\/span>/gi`. -/
def reP1LabelValue : RE := reSeqs
  [lits "ux-labels-values__labels", reStar notGt, lits ">", reStarL anyC,
   lits "<span", reStar notGt, lits ">", RE.grp 1 (rePlus notLt),
   lits "</span>", reStarL anyC, lits "ux-labels-values__values",
   reStar notGt, lits ">", reStarL anyC, lits "<span", reStar notGt,
   lits ">", RE.grp 2 (rePlus notLt), lits "</span>"]

/-- Transcribes
`/<div[^>]*class="[^"]*ux-layout-section-evo__col[^"]*"[^>]*>[\s\S]*?<span[^>]*>([^<]+)<\/span>[\s\S]*?<span[^>]*class="[^"]*ux-textspans--BOLD[^"]*"[^>]*>([^<]+)<\/span>/gi`. -/
def reP1SpecRow : RE := reSeqs
  [lits "<div", reStar notGt, lits "class=\"", reStar notQuote,
   lits "ux-layout-section-evo__col", reStar notQuote, lits "\"",
   reStar notGt, lits ">", reStarL anyC, lits "<span", reStar notGt,
   lits ">", RE.grp 1 (rePlus notLt), lits "</span>", reStarL anyC,
   lits "<span", reStar notGt, lits "class=\"", reStar notQuote,
   lits "ux-textspans--BOLD", reStar notQuote, lits "\"", reStar notGt,
   lits ">", RE.grp 2 (rePlus notLt), lits "</span>"]

/-- Transcribes
`/Item description from the seller[\s\S]*?<div[^>]*>([\s\S]*?)<\/div>[\s\S]*?(?:About this item|Report this item)/i`. -/
def reP1Desc1 : RE := reSeqs
  [lits "Item description from the seller", reStarL anyC, lits "<div",
   reStar notGt, lits ">", RE.grp 1 (reStarL anyC), lits "</div>",
   reStarL anyC,
   reAlts [lits "About this item", lits "Report this item"]]

/-- Transcribes `/<div[^>]*id="desc_div"[^>]*>([\s\S]*?)<\/div>/i`. -/
def reP1DescDiv : RE := reSeqs
  [lits "<div", reStar notGt, lits "id=\"desc_div\"", reStar notGt,
   lits ">", RE.grp 1 (reStarL anyC), lits "</div>"]

/-- Transcribes `/<div[^>]*class="[^"]*d-item-description[^"]*"[^>]*>([\s\S]*?)<\/div>/i`. -/
def reP1DItemDescription : RE := reSeqs
  [lits "<div", reStar notGt, lits "class=\"", reStar notQuote,
   lits "d-item-description", reStar notQuote, lits "\"", reStar notGt,
   lits ">", RE.grp 1 (reStarL anyC), lits "</div>"]

/-- Accumulator of the part_001 JSON-LD scan: `price` is `Option JVal`
because `price = jsonLd.offers.price` can store `undefined` (when only
`offers.priceCurrency` is present). -/
structure P1LdState where
  title : JVal
  price : Option JVal
  specifics : List (Str × JVal)
  description : JVal
  deriving Repr

def p1ldInit : P1LdState := ⟨.str [], some (.str []), [], .str []⟩

/-- One iteration of the part_001 JSON-LD loop (`src/unnamed/part_001`
lines 66-77): the offer price is stored raw, by two guards that both assign
`jsonLd.offers.price` (the second under `offers?.priceCurrency`); brand and
description as in fetch.js; a parse failure is skipped. -/
def p1jsonLdStep (st : P1LdState) (block : Str) : P1LdState :=
  match jsonParse block with
  | none => st
  | some j =>
    if jvStrictEqStr (jGet j (strL "@type")) (strL "Product")
        || truthyO (jGet j (strL "name")) then
      let st1 := match jGet j (strL "name") with
        | some v => if jvTruthy v then { st with title := v } else st
        | none => st
      let st2 :=
        if truthyO (jGet2 j (strL "offers") (strL "price")) then
          { st1 with price := jGet2 j (strL "offers") (strL "price") }
        else st1
      let st3 :=
        if truthyO (jGet2 j (strL "offers") (strL "priceCurrency")) then
          { st2 with price := jGet2 j (strL "offers") (strL "price") }
        else st2
      let st4 := match jGet2 j (strL "brand") (strL "name") with
        | some v =>
          if jvTruthy v then
            { st3 with specifics := upsert st3.specifics (strL "Brand") v }
          else st3
        | none => st3
      match jGet j (strL "description") with
      | some v => if jvTruthy v then { st4 with description := v } else st4
      | none => st4
    else st

/-- The part_001 JSON-LD scan: all `application/ld+json` blocks in order. -/
def p1jsonLdScan (html : Str) : P1LdState :=
  ((rxAll reJsonLd html).map (·.1)).foldl p1jsonLdStep p1ldInit

/-- The part_001 title fallbacks (lines 80-89): og:title meta (taken raw,
no suffix stripping and no trim), then the `x-item-title` heading with tags
removed and trimmed; each runs only while the title is falsy. -/
def p1titlePhase (html : Str) (t0 : JVal) : JVal :=
  let t1 :=
    if jvTruthy t0 then t0
    else
      match rxFirst1 reOgTitleA html with
      | some c => .str c
      | none => t0
  if jvTruthy t1 then t1
  else
    match rxFirst1 reP1H1 html with
    | some c => .str (jsTrim (rxReplace false reTag "" c))
    | none => t1

/-- The part_001 price fallbacks (lines 92-105): the `x-price-primary`
container span with tags removed, searched with `/\$?([\d,]+\.?\d*)/`, then
the `itemprop` pattern; each runs only while the price is falsy, and no
sanity bound is applied. -/
def p1pricePhase (html : Str) (p0 : Option JVal) : Option JVal :=
  let p1 :=
    if truthyO p0 then p0
    else
      match rxFirst1 reP1PriceContainer html with
      | some c =>
        match rxFirst1Cs reP1PriceNum (rxReplace false reTag "" c) with
        | some n => some (.str n)
        | none => p0
      | none => p0
  if truthyO p1 then p1
  else
    match rxFirst1 rePrice1 html with
    | some c => some (.str c)
    | none => p1

/-- The part_001 condition chain (lines 108-111): three patterns combined
with `||`; the first pattern that matches wins and its capture is trimmed
(kept even if it trims to empty). -/
def p1conditionPhase (html : Str) : Str :=
  match rxFirst1 reP1Cond1 html with
  | some c => jsTrim c
  | none =>
    match rxFirst1 reCond1 html with
    | some c => jsTrim c
    | none =>
      match rxFirst1 reP1Cond3 html with
      | some c => jsTrim c
      | none => []

/-- JS `s.includes(needle)`. -/
def strIncludes (needle s : Str) : Bool :=
  (List.range (s.length + 1)).any (fun i => needle.isPrefixOf (s.drop i))

/-- One stored pair of the section scan (lines 118-124): trimmed key and
value, both non-empty, key not containing `...`. -/
def p1sectionStep (specs : List (Str × JVal)) (m : Str × Str) :
    List (Str × JVal) :=
  let key := jsTrim m.1
  let value := jsTrim m.2
  if !key.isEmpty && !value.isEmpty && !strIncludes (strL "...") key then
    upsert specs key (.str value)
  else specs

/-- The `About this item` section scan (lines 115-125): when the
lookahead-bounded section is found, fold its label/value pairs into the
specifics. -/
def p1sectionPhase (html : Str) (s0 : List (Str × JVal)) : List (Str × JVal) :=
  match p1SpecificsSection html with
  | some sec => (rxAll reP1LabelValue sec).foldl p1sectionStep s0
  | none => s0

/-- One stored pair of the alternative row scan (lines 129-134): stored only
when both parts are non-empty, the key is shorter than 30, and no truthy
entry for the key exists yet. -/
def p1rowStep (specs : List (Str × JVal)) (m : Str × Str) : List (Str × JVal) :=
  let key := jsTrim m.1
  let value := jsTrim m.2
  if !key.isEmpty && !value.isEmpty && key.length < 30
      && !truthyO (getKey specs key) then
    upsert specs key (.str value)
  else specs

/-- The alternative row scan (lines 128-135). -/
def p1rowPhase (html : Str) (s0 : List (Str × JVal)) : List (Str × JVal) :=
  (rxAll reP1SpecRow html).foldl p1rowStep s0

/-- The part_001 description cleaning chain of lines 142-149 (no style/script
stripping and no `&lt;`/`&gt;` entities, unlike fetch.js). -/
def p1cleanDesc1 (s : Str) : Str :=
  let s := rxReplace false reTag " " s
  let s := rxReplace false (lits "&nbsp;") " " s
  let s := rxReplace false (lits "&amp;") "&" s
  let s := rxReplace false (lits "&quot;") "\"" s
  let s := rxReplace false (lits "&#39;") "\x27" s
  let s := rxReplace false reWsPlus " " s
  jsTrim s

/-- The second cleaning chain (lines 158-163): no quote or apostrophe
entities. -/
def p1cleanDesc2 (s : Str) : Str :=
  let s := rxReplace false reTag " " s
  let s := rxReplace false (lits "&nbsp;") " " s
  let s := rxReplace false (lits "&amp;") "&" s
  let s := rxReplace false reWsPlus " " s
  jsTrim s

/-- The part_001 description attempts (lines 139-165): the seller-section
pattern while the JSON-LD description is falsy, then the `desc_div` /
`d-item-description` pair while it is still falsy or shorter than 20. Each
match assigns its cleaned capture unconditionally. -/
def p1descPhase (html : Str) (d0 : JVal) : JVal :=
  let d1 :=
    if !jvTruthy d0 then
      match rxFirst1 reP1Desc1 html with
      | some raw => .str (p1cleanDesc1 raw)
      | none => d0
    else d0
  if !jvTruthy d1 || jsLtB (jvLengthProp d1) 20 then
    match rxFirst1 reP1DescDiv html with
    | some raw => .str (p1cleanDesc2 raw)
    | none =>
      match rxFirst1 reP1DItemDescription html with
      | some raw => .str (p1cleanDesc2 raw)
      | none => d1
  else d1

/-- The field lines of the part_001 summary (lines 168-178). -/
def p1summaryBase (title : JVal) (price : Option JVal) (condition : Str)
    (specifics : List (Str × JVal)) : Str :=
  (if jvTruthy title then strL "Title: " ++ jsToString title ++ strL "\n" else [])
  ++ (match price with
      | some v =>
        if jvTruthy v then strL "Price: $" ++ jsToString v ++ strL "\n" else []
      | none => [])
  ++ (if condition.isEmpty then [] else strL "Condition: " ++ condition ++ strL "\n")
  ++ (if specifics.isEmpty then []
      else strL "\nItem Specifics:\n" ++
        (specifics.map (fun p => p.1 ++ strL ": " ++ jsToString p.2 ++ strL "\n")).flatten)

/-- The part_001 summary builder (lines 168-187): the description block is
added only when the description is truthy with `.length > 10` (its `.slice`
can throw), there is no manual-entry note, and the fallback sentence
(textually the same as the fetch.js one, line 186) replaces the summary only
when it is empty or shorter than 50 characters. -/
def p1summaryPhase (title : JVal) (price : Option JVal) (condition : Str)
    (specifics : List (Str × JVal)) (description : JVal) : Except Unit Str :=
  match
    (if jvTruthy description && jsGtB (jvLengthProp description) 10 then
      (jsSliceVal description 3000).map (fun sl =>
        p1summaryBase title price condition specifics ++
          strL "\nSeller Description:\n" ++ jsToString sl ++
          (if jsGtB (jvLengthProp description) 3000 then strL "..." else []))
    else .ok (p1summaryBase title price condition specifics)) with
  | .error e => .error e
  | .ok s2 => .ok (if s2.isEmpty || s2.length < 50 then fallbackMsg else s2)

/-- The record returned by the part_001 `parseEbayListing`; `price` can hold
a raw JSON-LD value or `undefined` (`none`). -/
structure P1Listing where
  title : JVal
  price : Option JVal
  condition : Str
  specifics : List (Str × JVal)
  description : JVal
  summary : Str
  deriving Repr

/-- The full `parseEbayListing` of `src/unnamed/part_001` (lines 57-197): the
JSON-LD scan, the gap-filling phases, the summary, and the final record whose
description is `description.slice(0, 3000)` (no `|| \x27\x27` guard; the
initial value is already the empty string). -/
def p1parseEbayListing (html : Str) : Except Unit P1Listing :=
  let st := p1jsonLdScan html
  let title := p1titlePhase html st.title
  let price := p1pricePhase html st.price
  let condition := p1conditionPhase html
  let specifics := p1rowPhase html (p1sectionPhase html st.specifics)
  let description := p1descPhase html st.description
  match p1summaryPhase title price condition specifics description with
  | .error e => .error e
  | .ok summary =>
    match jsSliceVal description 3000 with
    | .error e => .error e
    | .ok descF => .ok ⟨title, price, condition, specifics, descF, summary⟩

/-! ### Helper lemmas -/

/-- Inversion of a successful `parseEbayListing`: the record's fields are the
phase results, and both the summary and the final slice succeeded. -/
theorem parse_ok_inv (html : Str) (r : Listing)
    (h : parseEbayListing html = .ok r) :
    ∃ su descF,
      summaryPhase (titlePhase html (jsonLdScan html).title)
          (pricePhase html (jsonLdScan html).price) (conditionPhase html)
          (specificsPhase html (jsonLdScan html).specifics)
          (descPhase html (jsonLdScan html).description) = .ok su
      ∧ jsSliceVal (if jvTruthy (descPhase html (jsonLdScan html).description)
            then descPhase html (jsonLdScan html).description
            else .str []) 3000 = .ok descF
      ∧ r = ⟨titlePhase html (jsonLdScan html).title,
             pricePhase html (jsonLdScan html).price,
             conditionPhase html,
             specificsPhase html (jsonLdScan html).specifics,
             descF, su⟩ := by
  simp only [parseEbayListing] at h
  split at h
  · exact Except.noConfusion h
  · split at h
    · exact Except.noConfusion h
    · exact ⟨_, _, ‹_›, ‹_›, by injection h with h'; exact h'.symm⟩

/-- A non-empty result of the price loop is a comma-stripped capture whose
parsed value passed the `(0, 50000)` sanity bound. -/
theorem priceLoop_bounds (ps : List RE) (html : Str)
    (h : priceLoop ps html ≠ []) :
    ∃ q, parseFloatQ (priceLoop ps html) = some q ∧ 0 < q ∧ q < 50000 := by
  induction ps with
  | nil => simp [priceLoop] at h
  | cons p ps ih =>
    rw [priceLoop] at h ⊢
    cases hm : rxFirst1 p html with
    | none => rw [hm] at h; dsimp only at h ⊢; exact ih h
    | some cap =>
      rw [hm] at h
      dsimp only at h ⊢
      cases hpf : parseFloatQ (stripCommas cap) with
      | none => rw [hpf] at h; dsimp only at h ⊢; exact ih h
      | some v =>
        rw [hpf] at h
        dsimp only at h ⊢
        by_cases hb : 0 < v ∧ v < 50000
        · rw [if_pos hb] at h ⊢; exact ⟨v, hpf, hb⟩
        · rw [if_neg hb] at h ⊢; exact ih h

/-- A failing `.slice` receiver is not sliceable. -/
theorem sliceable_of_slice_error (v : JVal) (n : Nat) (e : Unit)
    (h : jsSliceVal v n = .error e) : sliceable v = false := by
  cases v <;> simp_all [jsSliceVal, sliceable]

/-- If the summary builder of `src/api/fetch.js` throws, the description was
truthy and not sliceable. -/
theorem summaryPhase_error (t : JVal) (p c : Str) (sp : List (Str × JVal))
    (d : JVal) (e : Unit) (h : summaryPhase t p c sp d = .error e) :
    jvTruthy d = true ∧ sliceable d = false := by
  unfold summaryPhase at h
  by_cases hcond : (jvTruthy d && jsGtB (jvLengthProp d) 20) = true
  · rw [if_pos hcond] at h
    cases hsl : jsSliceVal d 3000 with
    | ok v =>
      rw [hsl] at h
      simp only [Except.map] at h
      exact Except.noConfusion h
    | error u =>
      exact ⟨((Bool.and_eq_true _ _).mp hcond).1, sliceable_of_slice_error _ _ _ hsl⟩
  · rw [if_neg hcond] at h
    simp only [] at h
    exact Except.noConfusion h

/-- If the summary builder succeeds while title and price are both empty, the
result is exactly the fixed fallback sentence. -/
theorem summaryPhase_fallback (t : JVal) (p c : Str) (sp : List (Str × JVal))
    (d : JVal) (su : Str) (h : summaryPhase t p c sp d = .ok su)
    (hc : (!jvTruthy t && p.isEmpty) = true) : su = fallbackMsg := by
  unfold summaryPhase at h
  by_cases hcond : (jvTruthy d && jsGtB (jvLengthProp d) 20) = true
  · rw [if_pos hcond] at h
    cases hsl : jsSliceVal d 3000 with
    | ok v =>
      rw [hsl] at h
      simp only [Except.map] at h
      injection h with h'
      rw [← h', hc, if_pos rfl]
    | error u =>
      rw [hsl] at h
      simp only [Except.map] at h
      exact Except.noConfusion h
  · rw [if_neg hcond] at h
    simp only [] at h
    injection h with h'
    rw [← h', hc, if_pos rfl]

/-- The `src/STATUS.md` summary builder never throws on a string description. -/
theorem buildSummaryStatus_ok_of_str (l : Listing) (s : Str)
    (hd : l.description = .str s) : ∃ t, buildSummaryStatus l = .ok t := by
  unfold buildSummaryStatus
  rw [hd]
  by_cases hcond : (jvTruthy (JVal.str s) && jsGtB (jvLengthProp (JVal.str s)) 20) = true
  · rw [if_pos hcond]; exact ⟨_, rfl⟩
  · rw [if_neg hcond]; exact ⟨_, rfl⟩

/-! #### Evaluation lemmas for uniform strings

The 3000-character truncation bound (claim C5) needs a string longer than
3000 characters; evaluating the cleaning chain on such a string by brute
reduction is out of reach, so we prove instead that none of the cleaning
regexes can match inside a string of `'a'`s: each pattern's first obligatory
character class rejects `'a'`. -/

/-- The first character class a regex must match, when it has one. -/
def firstCls : RE → Option CC
  | .cls cc => some cc
  | .seq a _ => firstCls a
  | .rep a (_ + 1) _ _ => firstCls a
  | _ => none

/-- A regex whose first obligatory class rejects the head character cannot
match at this position. -/
theorem reM_firstCls_fail (ci : Bool) (re : RE) (cc : CC) (c : Char)
    (hfc : firstCls re = some cc) (hcc : ccMatch ci cc c = false) :
    ∀ (fuel : Nat) (t : Str) (cp : Caps)
      (k : Str → Caps → Option (Str × Caps)),
      reM ci fuel re (c :: t) cp k = none := by
  induction re with
  | eps => exact absurd hfc (by simp [firstCls])
  | cls cc' =>
    intro fuel t cp k
    cases fuel with
    | zero => rfl
    | succ n =>
      have : cc' = cc := by simpa [firstCls] using hfc
      simp [reM, this, hcc]
  | seq a b iha ihb =>
    intro fuel t cp k
    cases fuel with
    | zero => rfl
    | succ n => simpa [reM] using iha (by simpa [firstCls] using hfc) n t cp _
  | alt a b iha ihb => exact absurd hfc (by simp [firstCls])
  | rep a lo hi lz iha =>
    intro fuel t cp k
    cases fuel with
    | zero => rfl
    | succ n =>
      cases lo with
      | zero => exact absurd hfc (by simp [firstCls])
      | succ m => simpa [reM] using iha (by simpa [firstCls] using hfc) n t cp _
  | grp i a iha => exact absurd hfc (by simp [firstCls])

/-- Such a regex cannot match the empty input either. -/
theorem reM_firstCls_nil (ci : Bool) (re : RE) (cc : CC)
    (hfc : firstCls re = some cc) :
    ∀ (fuel : Nat) (cp : Caps) (k : Str → Caps → Option (Str × Caps)),
      reM ci fuel re [] cp k = none := by
  induction re with
  | eps => exact absurd hfc (by simp [firstCls])
  | cls cc' =>
    intro fuel cp k
    cases fuel with
    | zero => rfl
    | succ n => simp [reM]
  | seq a b iha ihb =>
    intro fuel cp k
    cases fuel with
    | zero => rfl
    | succ n => simpa [reM] using iha (by simpa [firstCls] using hfc) n cp _
  | alt a b iha ihb => exact absurd hfc (by simp [firstCls])
  | rep a lo hi lz iha =>
    intro fuel cp k
    cases fuel with
    | zero => rfl
    | succ n =>
      cases lo with
      | zero => exact absurd hfc (by simp [firstCls])
      | succ m => simpa [reM] using iha (by simpa [firstCls] using hfc) n cp _
  | grp i a iha => exact absurd hfc (by simp [firstCls])

/-- No match anywhere in a uniform string of `'a'`s. -/
theorem reSearchAux_replicate_a_none (ci : Bool) (re : RE) (cc : CC)
    (hfc : firstCls re = some cc) (hcc : ccMatch ci cc 'a' = false) :
    ∀ (n : Nat) (acc : Str),
      reSearchAux ci re acc (List.replicate n 'a') = none := by
  intro n
  induction n with
  | zero =>
    intro acc
    rw [List.replicate_zero, reSearchAux, reM_firstCls_nil ci re cc hfc]
  | succ m ih =>
    intro acc
    rw [List.replicate_succ, reSearchAux,
      reM_firstCls_fail ci re cc 'a' hfc hcc]
    exact ih _

/-- A global replace with such a regex leaves a uniform `'a'`-string
unchanged. -/
theorem rxReplace_replicate_a_id (ci : Bool) (re : RE) (repl : String)
    (cc : CC) (hfc : firstCls re = some cc) (hcc : ccMatch ci cc 'a' = false)
    (n : Nat) :
    rxReplace ci re repl (List.replicate n 'a') = List.replicate n 'a' := by
  have hs : reSearch ci re (List.replicate n 'a') = none :=
    reSearchAux_replicate_a_none ci re cc hfc hcc n []
  unfold rxReplace
  rw [List.length_replicate, reReplaceAll, hs]

theorem dropWhile_replicate_a (n : Nat) :
    (List.replicate n 'a').dropWhile isJsSpace = List.replicate n 'a' := by
  cases n with
  | zero => rfl
  | succ m =>
    rw [List.replicate_succ, List.dropWhile_cons, if_neg (by decide)]

theorem jsTrim_replicate_a (n : Nat) :
    jsTrim (List.replicate n 'a') = List.replicate n 'a' := by
  unfold jsTrim
  rw [dropWhile_replicate_a, List.reverse_replicate, dropWhile_replicate_a,
    List.reverse_replicate]

/-- `splitNl.go` on newline-free input: one single segment. -/
theorem splitNl_go_no_nl (s : Str) :
    ∀ (cur : Str) (acc : List Str), '\n' ∉ s →
      splitNl.go s cur acc = ((cur.reverse ++ s) :: acc).reverse := by
  induction s with
  | nil => intro cur acc _; simp [splitNl.go]
  | cons c t ih =>
    intro cur acc h
    have hc : (c == '\n') = false := by
      simp only [beq_eq_false_iff_ne, ne_eq]
      exact fun he => h (he ▸ List.mem_cons_self c t)
    rw [splitNl.go, if_neg (by simp [hc]),
      ih _ _ (fun hm => h (List.mem_cons_of_mem _ hm))]
    simp

theorem splitNl_no_nl (s : Str) (h : '\n' ∉ s) : splitNl s = [s] := by
  unfold splitNl
  rw [splitNl_go_no_nl s [] [] h]
  simp

theorem intercalate_single (sep x : Str) : List.intercalate sep [x] = x := by
  simp [List.intercalate]

/-- The whole iframe-description cleaning is the identity on a non-empty
uniform `'a'`-string: no pattern can match, no whitespace to trim or split. -/
theorem parseIframeDescription_replicate_a (n : Nat) (hn : 0 < n) :
    parseIframeDescription (List.replicate n 'a') = List.replicate n 'a' := by
  have hne : (List.replicate n 'a').isEmpty = false := by
    cases n with
    | zero => exact absurd hn (by simp)
    | succ m => rw [List.replicate_succ]; rfl
  unfold parseIframeDescription
  simp only
    [rxReplace_replicate_a_id true reStyleBlock "" (CC.lit '<') rfl (by decide),
     rxReplace_replicate_a_id true reScriptBlock "" (CC.lit '<') rfl (by decide),
     rxReplace_replicate_a_id false reTag "\n" (CC.lit '<') rfl (by decide),
     rxReplace_replicate_a_id false (lits "&nbsp;") " " (CC.lit '&') rfl (by decide),
     rxReplace_replicate_a_id false (lits "&amp;") "&" (CC.lit '&') rfl (by decide),
     rxReplace_replicate_a_id false (lits "&quot;") "\"" (CC.lit '&') rfl (by decide),
     rxReplace_replicate_a_id false (lits "&#39;") "\x27" (CC.lit '&') rfl (by decide),
     rxReplace_replicate_a_id false (lits "&lt;") "<" (CC.lit '&') rfl (by decide),
     rxReplace_replicate_a_id false (lits "&gt;") ">" (CC.lit '&') rfl (by decide),
     rxReplace_replicate_a_id false reNlWsNl "\n" (CC.lit '\n') rfl (by decide),
     rxReplace_replicate_a_id false reSpaceTabPlus " " CC.spaceTab rfl (by decide),
     jsTrim_replicate_a]
  rw [splitNl_no_nl _ (by simp [List.mem_replicate])]
  simp [hne, intercalate_single, jsTrim_replicate_a]

/-- The replacement path of the second pass: when the pass runs (inline
description a string shorter than 50), an iframe URL is found and the fetch
succeeds, the final description is the longer candidate. -/
theorem secondPass_desc (listing : Listing) (d0 u body d1 : Str) (html : Str)
    (hd : listing.description = .str d0)
    (hshort : d0.length < 50)
    (hurl : extractDescriptionIframeUrl html = some u)
    (hd1 : parseIframeDescription body = d1)
    (hifr : d1 ≠ []) :
    (secondPass listing html (Except.ok (true, body))).map Listing.description
      = Except.ok (JVal.str (if d0.length < d1.length then d1 else d0)) := by
  unfold secondPass
  rw [hd]
  have hcond : (!jvTruthy (JVal.str d0)
      || jsLtB (jvLengthProp (JVal.str d0)) 50) = true := by
    refine Bool.or_eq_true _ _ |>.mpr (Or.inr ?_)
    simp only [jvLengthProp, jsLtB, jsToNumber]
    rw [decide_eq_true_iff]
    exact_mod_cast hshort
  rw [if_pos hcond, hurl]
  dsimp only
  rw [hd1]
  have horz : orZero (optLen (JVal.str d0)) = JVal.num (d0.length : ℚ) := by
    simp only [optLen, jvLengthProp, orZero, jvTruthy]
    by_cases h0 : d0.length = 0
    · rw [if_neg (by rw [h0]; simp), h0]
      norm_num
    · rw [if_pos (by rw [bne_iff_ne]; exact_mod_cast h0)]
  simp only [horz]
  have hngv : natGtVal d1.length (JVal.num (d0.length : ℚ))
      = decide (d0.length < d1.length) := by
    simp only [natGtVal, jsToNumber, gt_iff_lt]
    exact decide_eq_decide.mpr (by exact_mod_cast Iff.rfl)
  simp only [hngv]
  by_cases hgt : d0.length < d1.length
  · obtain ⟨t, hbs⟩ := buildSummaryStatus_ok_of_str
      { listing with description := .str d1 } d1 rfl
    rw [if_pos hgt]
    have hboth : (!d1.isEmpty && decide (d0.length < d1.length)) = true := by
      rw [Bool.and_eq_true]
      exact ⟨by simpa [List.isEmpty_iff] using hifr, decide_eq_true hgt⟩
    rw [if_pos hboth, hbs]
    rfl
  · rw [if_neg hgt]
    have hboth : (!d1.isEmpty && decide (d0.length < d1.length)) = false := by
      rw [Bool.and_eq_false_iff]
      right
      simpa using hgt
    rw [if_neg (fun hc => Bool.false_ne_true (hboth ▸ hc))]
    simp [Except.map, hd]

/-! ### Claim C1 -/

/-- C1: the claim says that any request whose URL parses but whose host is not
on the allow-list (exact match or registrable-domain suffix match) fails with
`UnsupportedSource` before any network call. The code instead checks plain
`hostname.endsWith(domain)`: the host `evilebay.com` is not allow-listed in
the claim's sense, yet the handler issues the ScrapingBee fetch for it — the
security allow-list intended by the code's own comment
(`// Only allow eBay URLs for security`) is not enforced. -/
theorem c1_allowlist_bug :
    handler "GET" (some (strL "https://evilebay.com/itm/1")) true
      = HandlerOutcome.fetchIssued (strL "https://evilebay.com/itm/1")
    ∧ parseUrlHostname (strL "https://evilebay.com/itm/1")
      = some (strL "evilebay.com")
    ∧ specAllowsHost (strL "evilebay.com") = false :=
  ⟨rfl, rfl, rfl⟩

/-! ### Claim C2 -/

/-- A page whose only price is declared in a JSON-LD block, with a value far
above the sanity bound. -/
def c2html : Str := strL "<script type=\"application/ld+json\">\x7b\"@type\":\"Product\",\"name\":\"X\",\"offers\":\x7b\"price\":3400221\x7d\x7d</script>"

/-- C2 (counterexample): the claim says the returned price, when non-empty,
always parses to a value strictly between 0 and 50000. On `c2html` the price
is taken from the JSON-LD block with no bound check, and the returned price
`"3400221"` parses to 3400221, far above 50000. -/
theorem c2_counterexample :
    (parseEbayListing c2html).map Listing.price = Except.ok (strL "3400221")
    ∧ parseFloatQ (strL "3400221") = some 3400221
    ∧ ¬ ((3400221 : ℚ) < 50000) :=
  ⟨by with_unfolding_all rfl, by with_unfolding_all rfl, by norm_num⟩

/-- C2 (amended): every price candidate produced by a pattern strategy is
parsed as a decimal with thousands separators stripped and stored only if its
value lies strictly between 0 and 50000, so a non-empty returned price either
was taken verbatim from the structured-metadata (JSON-LD) scan — which
performs no bound check — or parses to a value strictly between 0 and 50000. -/
theorem c2_price_bound (html : Str) (r : Listing)
    (h : parseEbayListing html = .ok r) (hne : r.price ≠ []) :
    (r.price = (jsonLdScan html).price ∧ (jsonLdScan html).price ≠ [])
    ∨ ∃ q, parseFloatQ r.price = some q ∧ 0 < q ∧ q < 50000 := by
  obtain ⟨su, descF, -, -, hr⟩ := parse_ok_inv html r h
  have hp : r.price = pricePhase html (jsonLdScan html).price := by rw [hr]
  rw [hp] at hne ⊢
  unfold pricePhase at hne ⊢
  by_cases h0 : (jsonLdScan html).price.isEmpty = true
  · rw [if_pos h0] at hne ⊢
    exact Or.inr (priceLoop_bounds _ _ hne)
  · rw [if_neg h0] at hne ⊢
    exact Or.inl ⟨rfl, by simpa using h0⟩

/-- A page with a plain `itemprop` price attribute, for the witness. -/
def c2whtml : Str := strL "<span itemprop=\"price\" content=\"45.00\">x</span>"

/-- The record `parseEbayListing` returns on `c2whtml`. -/
def c2wrec : Listing :=
  ⟨.str [], strL "45.00", [], [], .str [],
   strL "Price: $45.00\n" ++ manualNoteFJ⟩

/-- Witness for `c2_price_bound` at the concrete page `c2whtml`. -/
theorem c2_price_bound_witness :
    parseEbayListing c2whtml = .ok c2wrec
    ∧ ((c2wrec.price = (jsonLdScan c2whtml).price ∧ (jsonLdScan c2whtml).price ≠ [])
       ∨ ∃ q, parseFloatQ c2wrec.price = some q ∧ 0 < q ∧ q < 50000) :=
  ⟨by with_unfolding_all rfl,
   c2_price_bound c2whtml c2wrec (by with_unfolding_all rfl) (by decide)⟩

/-! ### Claim C3 -/

/-- A page whose JSON-LD product name carries surrounding whitespace. -/
def c3html : Str := strL "<script type=\"application/ld+json\">\x7b\"name\":\" Vintage Jacket \"\x7d</script>"

/-- C3 (counterexample): the claim says a JSON-LD product name is used as the
title verbatim *after trimming*. The code assigns `jsonLd.name` without
trimming: on `c3html` the returned title keeps its surrounding spaces and so
differs from the trimmed name. -/
theorem c3_counterexample :
    (parseEbayListing c3html).map Listing.title
      = Except.ok (JVal.str (strL " Vintage Jacket "))
    ∧ strL " Vintage Jacket " ≠ jsTrim (strL " Vintage Jacket ") :=
  ⟨rfl, by decide⟩

/-- C3 (amended): when the structured-metadata (JSON-LD) scan declares a
truthy product name, the returned title equals that value exactly as parsed —
no trimming is applied — and no later pattern-based title strategy
(social-title meta тag, heading, or title element) overwrites it. -/
theorem c3_jsonld_title_wins (html : Str) (r : Listing)
    (h : parseEbayListing html = .ok r)
    (ht : jvTruthy (jsonLdScan html).title = true) :
    r.title = (jsonLdScan html).title := by
  obtain ⟨su, descF, -, -, hr⟩ := parse_ok_inv html r h
  have : r.title = titlePhase html (jsonLdScan html).title := by rw [hr]
  rw [this]
  unfold titlePhase
  rw [if_pos ht, if_pos ht]

/-- A page with a clean JSON-LD product name, for the witness. -/
def c3whtml : Str := strL "<script type=\"application/ld+json\">\x7b\"name\":\"Widget\"\x7d</script>"

/-- The record `parseEbayListing` returns on `c3whtml`. -/
def c3wrec : Listing :=
  ⟨.str (strL "Widget"), [], [], [], .str [],
   strL "Title: Widget\n" ++ manualNoteFJ⟩

/-- Witness for `c3_jsonld_title_wins` at the concrete page `c3whtml`. -/
theorem c3_jsonld_title_wins_witness :
    parseEbayListing c3whtml = .ok c3wrec
    ∧ c3wrec.title = (jsonLdScan c3whtml).title :=
  ⟨rfl, c3_jsonld_title_wins c3whtml c3wrec rfl rfl⟩

/-! ### Claim C4 -/

/-- A document for `src/unnamed/part_001` with no recoverable title or price
but a long recoverable condition. -/
def c4p1html : Str :=
  strL "\"conditionDisplayName\": \"New without tags. Item is unworn and unused.\""

/-- The record the part_001 parser returns on `c4p1html`: the 44-character
condition alone builds a 56-character summary. -/
def c4p1rec : P1Listing :=
  ⟨.str [], some (.str []),
   strL "New without tags. Item is unworn and unused.", [], .str [],
   strL "Condition: New without tags. Item is unworn and unused.\n"⟩

/-- C4 (counterexample): the claim says that whenever no title and no price
are recovered the summary equals the fixed fallback sentence, even when a
condition was recovered, and cites `src/unnamed/part_001` lines 185-187.
That generation replaces the summary only when it is empty or shorter than 50
characters: on `c4p1html` no title and no price are recovered, yet the
recovered condition alone builds a 56-character summary which is returned
as is, not the fallback sentence. -/
theorem c4_counterexample :
    p1parseEbayListing c4p1html = .ok c4p1rec
    ∧ jvTruthy c4p1rec.title = false
    ∧ truthyO c4p1rec.price = false
    ∧ c4p1rec.summary ≠ fallbackMsg := by
  refine ⟨by with_unfolding_all rfl, rfl, rfl, by decide⟩

/-- C4 (amended): in the `src/api/fetch.js` generation, when neither a title
nor a price was recovered the returned summary is exactly the fixed
manual-entry fallback sentence, replacing every other emitted line
(condition, specifics and description lines included); in the earlier
`src/unnamed/part_001` generation the fallback fires only when the built
summary is empty or shorter than 50 characters (see `c4_counterexample`). -/
theorem c4_fallback_summary (html : Str) (r : Listing)
    (h : parseEbayListing html = .ok r)
    (ht : jvTruthy r.title = false) (hp : r.price = []) :
    r.summary = fallbackMsg := by
  obtain ⟨su, descF, hsu, -, hr⟩ := parse_ok_inv html r h
  have hsum : r.summary = su := by rw [hr]
  have htt : jvTruthy (titlePhase html (jsonLdScan html).title) = false := by
    have : r.title = titlePhase html (jsonLdScan html).title := by rw [hr]
    rw [← this]; exact ht
  have hpp : pricePhase html (jsonLdScan html).price = [] := by
    have : r.price = pricePhase html (jsonLdScan html).price := by rw [hr]
    rw [← this]; exact hp
  rw [hsum]
  exact summaryPhase_fallback _ _ _ _ _ _ hsu (by rw [htt, hpp]; rfl)

/-- A page with only a recoverable condition (`Used`), no title, no price. -/
def c4html : Str := strL "<span class=\"ux-icon-text\">Used</span>"

/-- The record `parseEbayListing` returns on `c4html`: the condition was
recovered, and the summary is the fallback sentence. -/
def c4rec : Listing :=
  ⟨.str [], [], strL "Used", [], .str [], fallbackMsg⟩

/-- Witness for `c4_fallback_summary`: on `c4html` a condition is recovered
but no title or price, and the summary equals the fallback exactly. -/
theorem c4_fallback_summary_witness :
    parseEbayListing c4html = .ok c4rec
    ∧ c4rec.condition = strL "Used"
    ∧ c4rec.summary = fallbackMsg :=
  ⟨rfl, rfl, c4_fallback_summary c4html c4rec rfl rfl rfl⟩

/-! ### Claim C5 -/

/-- A successful `.slice(0, n)` yields a string (or array) of length at most
`n`. -/
theorem slice_ok_shape (v w : JVal) (n : Nat) (h : jsSliceVal v n = .ok w) :
    (∃ s : Str, w = .str s ∧ s.length ≤ n)
    ∨ (∃ l : List JVal, w = .arr l ∧ l.length ≤ n) := by
  cases v <;> simp [jsSliceVal] at h
  case str s => exact Or.inl ⟨s.take n, h.symm, List.length_take_le n s⟩
  case arr l => exact Or.inr ⟨l.take n, h.symm, List.length_take_le n l⟩

/-- A page whose only content is a description-iframe reference. -/
def c5html : Str := strL "<iframe src=\"https://vi.vipr.ebaydesc.com/ws/eBayISAPI.dll?item=1\">"

/-- The record the single-document parser returns on `c5html`. -/
def c5irec : Listing := ⟨.str [], [], [], [], .str [], fallbackMsg⟩

/-- The length observation used in the counterexample statement. -/
def descLen (v : JVal) : Nat :=
  match v with
  | .str s => s.length
  | _ => 0

theorem replicate_succ_ne_nil (n : Nat) (c : Char) :
    List.replicate (n + 1) c ≠ [] := by
  rw [List.replicate_succ]
  exact List.cons_ne_nil _ _

/-- Push a known description through the length observation. -/
theorem except_map_desc_len (X : Except Unit Listing) (v : JVal)
    (h : X.map Listing.description = .ok v) :
    X.map (fun l => match l.description with | JVal.str s => s.length | _ => 0)
      = .ok (descLen v) := by
  cases X with
  | error e => simp [Except.map] at h
  | ok l =>
    have h2 : l.description = v := by simpa [Except.map] using h
    subst h2
    rfl

/-- C5 (counterexample): the claim says the returned description is at most
3000 characters for every input, including the path where the description is
replaced by the secondary sub-document fetch. On that path
(`src/STATUS.md` line 210) the iframe text is assigned without truncation: a
3010-character sub-document yields a 3010-character description. -/
theorem c5_counterexample :
    ((parseEbayListing c5html).bind
        (fun r => secondPass r c5html (Except.ok (true, List.replicate 3010 'a')))).map
        (fun l => match l.description with | JVal.str s => s.length | _ => 0)
      = Except.ok 3010
    ∧ 3000 < 3010 := by
  refine ⟨?_, by norm_num⟩
  have hp : parseEbayListing c5html = .ok c5irec := by with_unfolding_all rfl
  rw [hp]
  have hid : parseIframeDescription (List.replicate 3010 'a')
      = List.replicate 3010 'a' :=
    parseIframeDescription_replicate_a 3010 (by norm_num)
  have hsd := secondPass_desc c5irec []
    (strL "https://vi.vipr.ebaydesc.com/ws/eBayISAPI.dll?item=1")
    (List.replicate 3010 'a') (List.replicate 3010 'a') c5html
    rfl (by decide) (by with_unfolding_all rfl) hid (replicate_succ_ne_nil 3009 'a')
  simp only [List.length_replicate, List.length_nil] at hsd
  rw [if_pos (by norm_num)] at hsd
  simp only [Except.bind]
  exact (except_map_desc_len _ _ hsd).trans
    (by dsimp only [descLen]; rw [List.length_replicate])

/-- C5 (amended): the single-document parser truncates: on every input where
`parseEbayListing` returns a record, the description is a string of at most
3000 characters (or, when crafted structured metadata supplied an array
description, an array of at most 3000 elements). The sub-document replacement
path of the `src/STATUS.md` handler stores the fetched description without
truncation and can exceed 3000 characters. -/
theorem c5_truncation (html : Str) (r : Listing)
    (h : parseEbayListing html = .ok r) :
    (∃ s : Str, r.description = .str s ∧ s.length ≤ 3000)
    ∨ (∃ l : List JVal, r.description = .arr l ∧ l.length ≤ 3000) := by
  obtain ⟨su, descF, -, hsl, hr⟩ := parse_ok_inv html r h
  have hd : r.description = descF := by rw [hr]
  rw [hd]
  exact slice_ok_shape _ _ _ hsl

/-- The record `parseEbayListing` returns on the page `"x"`. -/
def c5wrec : Listing := ⟨.str [], [], [], [], .str [], fallbackMsg⟩

/-- Witness for `c5_truncation` at the concrete page `"x"`. -/
theorem c5_truncation_witness :
    parseEbayListing (strL "x") = .ok c5wrec
    ∧ ((∃ s : Str, c5wrec.description = .str s ∧ s.length ≤ 3000)
       ∨ (∃ l : List JVal, c5wrec.description = .arr l ∧ l.length ≤ 3000)) :=
  ⟨rfl, c5_truncation (strL "x") c5wrec rfl⟩

/-! ### Claim C7 -/

/-- C7: when an inline description was recovered (non-empty, and short enough
— under 50 characters — that the sub-document pass runs), a description
iframe URL is found, and the iframe fetch succeeds with a non-empty cleaned
text, the longer of the two candidate descriptions is kept. -/
theorem c7_longer_sub_description_wins (listing : Listing) (d0 u body d1 html : Str)
    (hd : listing.description = .str d0)
    (hne : d0 ≠ [])
    (hshort : d0.length < 50)
    (hurl : extractDescriptionIframeUrl html = some u)
    (hd1 : parseIframeDescription body = d1)
    (hifr : d1 ≠ []) :
    (secondPass listing html (Except.ok (true, body))).map Listing.description
      = Except.ok (JVal.str (if d0.length < d1.length then d1 else d0)) :=
  secondPass_desc listing d0 u body d1 html hd hshort hurl hd1 hifr

/-- The first-pass listing for the witness: a 10-character inline description. -/
def c7listing : Listing :=
  ⟨.str (strL "t"), strL "9", [], [], .str (strL "aaaaaaaaaa"), []⟩

/-- A page carrying a description-iframe reference, for the witness. -/
def c7html : Str := strL "<iframe src=\"https://vi.vipr.ebaydesc.com/ws/desc\">"

/-- Witness for `c7_longer_sub_description_wins`: the 10-character inline
description loses to a 500-character sub-document text. -/
theorem c7_longer_sub_description_wins_witness :
    (secondPass c7listing c7html (Except.ok (true, List.replicate 500 'b'))).map
        Listing.description
      = Except.ok (JVal.str (List.replicate 500 'b')) := by
  have h := c7_longer_sub_description_wins c7listing (strL "aaaaaaaaaa")
    (strL "https://vi.vipr.ebaydesc.com/ws/desc") (List.replicate 500 'b')
    (List.replicate 500 'b') c7html
    rfl (by decide) (by decide) rfl (by decide) (by decide)
  exact h.trans (by rw [if_pos (by decide)])

/-! ### Claim C8 -/

/-- C8: a failure of the secondary sub-document fetch — a thrown network
error or a non-ok response — is swallowed: the second pass returns the
first-pass listing unchanged (which the handler then serves as a 200
response), and no error is surfaced. -/
theorem c8_fetch_failure_swallowed (listing : Listing) (html : Str)
    (res : FetchResult) (h : fetchFailed res = true) :
    secondPass listing html res = Except.ok listing := by
  unfold secondPass
  by_cases hcond : (!jvTruthy listing.description
      || jsLtB (jvLengthProp listing.description) 50) = true
  · rw [if_pos hcond]
    cases hurl : extractDescriptionIframeUrl html with
    | none => rfl
    | some u =>
      cases res with
      | error e => rfl
      | ok pr =>
        obtain ⟨okFlag, body⟩ := pr
        cases okFlag with
        | false => rfl
        | true => simp [fetchFailed] at h
  · rw [if_neg hcond]

/-! ### Claim C6 -/

/-- What holds of every stored specifics entry: a non-empty key, and either a
vocabulary key (targeted lookup or JSON-LD brand) or a string value accepted
by the generic-scan filter. -/
def specP (kv : Str × JVal) : Prop :=
  kv.1 ≠ [] ∧ ((∃ n, n ∈ commonSpecs ∧ kv.1 = strL n)
    ∨ (∃ s, kv.2 = JVal.str s ∧ goodSpecPair kv.1 s = true))

/-- Membership after a keyed upsert: the new pair or an old entry. -/
theorem mem_upsert (m : List (Str × JVal)) (k : Str) (v : JVal)
    (kv : Str × JVal) (h : kv ∈ upsert m k v) : kv = (k, v) ∨ kv ∈ m := by
  induction m with
  | nil => simpa [upsert] using h
  | cons hd tl ih =>
    obtain ⟨k', v'⟩ := hd
    by_cases he : (k' == k) = true
    · rw [upsert, if_pos he] at h
      rcases List.mem_cons.mp h with h1 | h2
      · left; rw [h1, eq_of_beq he]
      · right; exact List.mem_cons_of_mem _ h2
    · rw [upsert, if_neg he] at h
      rcases List.mem_cons.mp h with h1 | h2
      · right; rw [h1]; exact List.mem_cons_self _ _
      · rcases ih h2 with ha | hb
        · left; exact ha
        · right; exact List.mem_cons_of_mem _ hb

/-- An upsert of an acceptable pair preserves the entry invariant. -/
theorem specP_upsert (m : List (Str × JVal)) (k : Str) (v : JVal)
    (hm : ∀ x ∈ m, specP x) (hkv : specP (k, v)) :
    ∀ x ∈ upsert m k v, specP x := fun x hx =>
  (mem_upsert m k v x hx).elim (fun he => he ▸ hkv) (hm x)

/-- The JSON-LD step touches the specifics only through a `Brand` upsert. -/
theorem jsonLdStep_specifics (st : LdState) (block : Str) :
    (jsonLdStep st block).specifics = st.specifics
    ∨ ∃ v, (jsonLdStep st block).specifics = upsert st.specifics (strL "Brand") v := by
  unfold jsonLdStep
  repeat' split
  all_goals first
    | exact Or.inl rfl
    | exact Or.inr ⟨_, rfl⟩

/-- Every key of `commonSpecs` is non-empty. -/
theorem commonSpecs_keys_nonempty : ∀ n ∈ commonSpecs, strL n ≠ [] := by decide

/-- The JSON-LD scan only ever stores the `Brand` key. -/
theorem foldl_jsonLdStep_specP (blocks : List Str) (st : LdState)
    (h : ∀ x ∈ st.specifics, specP x) :
    ∀ x ∈ (blocks.foldl jsonLdStep st).specifics, specP x := by
  induction blocks generalizing st with
  | nil => exact h
  | cons b bs ih =>
    refine ih _ ?_
    rcases jsonLdStep_specifics st b with he | ⟨v, he⟩
    · rw [he]; exact h
    · rw [he]
      exact specP_upsert _ _ _ h
        ⟨show strL "Brand" ≠ [] by decide, Or.inl ⟨"Brand", by decide, rfl⟩⟩

theorem jsonLdScan_specP (html : Str) :
    ∀ x ∈ (jsonLdScan html).specifics, specP x := by
  unfold jsonLdScan
  exact foldl_jsonLdStep_specP _ _ (fun x hx => absurd hx (List.not_mem_nil x))

/-- One generic-scan step only stores filter-passing string pairs. -/
theorem specScanStep_specP (m : List (Str × JVal)) (p : Str × Str)
    (h : ∀ x ∈ m, specP x) : ∀ x ∈ specScanStep m p, specP x := by
  unfold specScanStep
  by_cases hg : goodSpecPair (jsTrim (stripColonSuffix p.1)) (jsTrim p.2) = true
  · rw [if_pos hg]
    refine specP_upsert _ _ _ h ⟨?_, Or.inr ⟨_, rfl, hg⟩⟩
    intro h0
    rw [show jsTrim (stripColonSuffix p.1) = [] from h0] at hg
    simp [goodSpecPair] at hg
  · rw [if_neg hg]
    exact h

theorem foldl_specScanStep_specP (ms : List (Str × Str)) (m : List (Str × JVal))
    (h : ∀ x ∈ m, specP x) : ∀ x ∈ ms.foldl specScanStep m, specP x := by
  induction ms generalizing m with
  | nil => exact h
  | cons p ps ih => exact ih _ (specScanStep_specP _ _ h)

/-- One targeted-lookup step only stores vocabulary keys. -/
theorem commonSpecStep_specP (html : Str) (m : List (Str × JVal)) (name : String)
    (hmem : name ∈ commonSpecs) (h : ∀ x ∈ m, specP x) :
    ∀ x ∈ commonSpecStep html m name, specP x := by
  unfold commonSpecStep
  by_cases ht : truthyO (getKey m (strL name)) = true
  · rw [if_pos ht]; exact h
  · rw [if_neg ht]
    cases hA : rxFirst1 (commonReA name) html with
    | some c =>
      exact specP_upsert _ _ _ h
        ⟨commonSpecs_keys_nonempty _ hmem, Or.inl ⟨name, hmem, rfl⟩⟩
    | none =>
      cases hB : rxFirst1 (commonReB name) html with
      | some c =>
        exact specP_upsert _ _ _ h
          ⟨commonSpecs_keys_nonempty _ hmem, Or.inl ⟨name, hmem, rfl⟩⟩
      | none => exact h

theorem foldl_commonSpecStep_specP (html : Str) (names : List String)
    (hsub : ∀ n ∈ names, n ∈ commonSpecs) (m : List (Str × JVal))
    (h : ∀ x ∈ m, specP x) :
    ∀ x ∈ names.foldl (commonSpecStep html) m, specP x := by
  induction names generalizing m with
  | nil => exact h
  | cons n ns ih =>
    exact ih (fun a ha => hsub a (List.mem_cons_of_mem _ ha)) _
      (commonSpecStep_specP _ _ _ (hsub n (List.mem_cons_self _ _)) h)

/-- A page whose only specifics source is a JSON attribute with a
navigational value. -/
def c6html : Str := strL "\"Size\": \"See the full description\""

/-- C6 (counterexample): the claim says every stored specifics entry has a
value that does not start with See/View/Read/Show (and is at most 100
characters, etc.). The targeted common-attribute lookup stores its captures
without those checks: on `c6html` the entry `Size → "See the full
description"` is stored although its value starts with `See`. -/
theorem c6_counterexample :
    (parseEbayListing c6html).map Listing.specifics
      = Except.ok [(strL "Size", JVal.str (strL "See the full description"))]
    ∧ navValTest (strL "See the full description") = true :=
  ⟨rfl, by decide⟩

/-- C6 (amended): every entry stored in the returned specifics mapping has a
non-empty key, and either (a) it was stored by the generic label/value scan,
in which case it is a string value passing the full filter (non-empty key
under 25 characters, non-empty value under 100 characters, label not starting
with See/View/Read/Show/More/Less or a digit, value not starting with
See/View/Read/Show), or (b) its key is one of the fixed vocabulary words
(targeted common-attribute lookup, or the JSON-LD brand stored under
`Brand`), whose trimmed value is stored without those validations. -/
theorem c6_specifics_entries (html : Str) (r : Listing)
    (h : parseEbayListing html = .ok r) :
    ∀ kv ∈ r.specifics, specP kv := by
  obtain ⟨su, descF, -, -, hr⟩ := parse_ok_inv html r h
  have hs : r.specifics = specificsPhase html (jsonLdScan html).specifics := by
    rw [hr]
  rw [hs]
  unfold specificsPhase
  exact foldl_commonSpecStep_specP _ _ (fun n hn => hn) _
    (foldl_specScanStep_specP _ _ (jsonLdScan_specP html))

/-- A page with one generic `dt`/`dd` specifics pair, for the witness. -/
def c6whtml : Str := strL "<dt>Size</dt><dd>Medium</dd>"

/-- The record `parseEbayListing` returns on `c6whtml`. -/
def c6wrec : Listing :=
  ⟨.str [], [], [], [(strL "Size", JVal.str (strL "Medium"))], .str [], fallbackMsg⟩

/-- Witness for `c6_specifics_entries` at the concrete page `c6whtml`. -/
theorem c6_specifics_entries_witness :
    parseEbayListing c6whtml = .ok c6wrec
    ∧ specP (strL "Size", JVal.str (strL "Medium")) :=
  ⟨rfl, c6_specifics_entries c6whtml c6wrec rfl _ (List.mem_singleton.mpr rfl)⟩

/-! ### Claim C9 -/

/-- The end-to-end page of the claim, with the site-name suffix
`" | MarketSite"`. -/
def c9html : Str := strL "<meta property=\"og:title\" content=\"Vintage Levi\x27s 501 | MarketSite\"><span itemprop=\"price\" content=\"45.00\"><span class=\"ux-icon-text\">Pre-owned</span>"

/-- C9 (counterexample): the claim expects the title `"Vintage Levi's 501"`
with the site-name suffix stripped. The code only strips the literal
suffix `" | eBay"`, so `" | MarketSite"` is kept and the returned title
differs from the claimed one. -/
theorem c9_counterexample :
    (parseEbayListing c9html).map Listing.title
      = Except.ok (JVal.str (strL "Vintage Levi\x27s 501 | MarketSite"))
    ∧ strL "Vintage Levi\x27s 501 | MarketSite" ≠ strL "Vintage Levi\x27s 501" :=
  ⟨by with_unfolding_all rfl, by decide⟩

/-- The same page with the suffix the code actually strips (`" | eBay"`). -/
def c9ehtml : Str := strL "<meta property=\"og:title\" content=\"Vintage Levi\x27s 501 | eBay\"><span itemprop=\"price\" content=\"45.00\"><span class=\"ux-icon-text\">Pre-owned</span>"

/-- C9 (amended): on the claimed page with the marketplace suffix spelled
`" | eBay"` — the only suffix the code strips — extraction yields title
`"Vintage Levi's 501"`, price `"45.00"`, condition `"Pre-owned"`, and a
summary beginning with those three lines in order. -/
theorem c9_end_to_end :
    (parseEbayListing c9ehtml).map
        (fun r => (r.title, r.price, r.condition,
          (strL "Title: Vintage Levi\x27s 501\nPrice: $45.00\nCondition: Pre-owned\n").isPrefixOf
            r.summary))
      = Except.ok
          (JVal.str (strL "Vintage Levi\x27s 501"), strL "45.00", strL "Pre-owned", true) := by
  with_unfolding_all rfl

/-! ### Claim C10 -/

/-- A parseable metadata block whose `description` is a (truthy) number. -/
def c10html : Str := strL "<script type=\"application/ld+json\">\x7b\"name\":\"x\",\"description\":5\x7d</script>"

/-- C10 (counterexample): the claim says `parseEbayListing` returns a record
without throwing on every input. A well-formed JSON-LD block whose
`description` is the number 5 makes the final
`(description || '').slice(0, 3000)` throw a `TypeError` (numbers have no
`slice`), so the handler answers with the generic internal error. -/
theorem c10_counterexample : parseEbayListing c10html = Except.error () := by
  with_unfolding_all rfl

/-- C10 (amended): `parseEbayListing` terminates on every input and skips
malformed metadata blocks, but it throws — and only throws — when the
description it ends up with is truthy and neither a string nor an array
(a crafted structured-metadata description such as a number, `true`, or an
object), in which case a successful fetch becomes the generic internal-error
response. -/
theorem c10_throw_characterization (html : Str)
    (h : parseEbayListing html = .error ()) :
    jvTruthy (descPhase html (jsonLdScan html).description) = true
    ∧ sliceable (descPhase html (jsonLdScan html).description) = false := by
  simp only [parseEbayListing] at h
  split at h
  next e heq => exact summaryPhase_error _ _ _ _ _ _ heq
  next su heq =>
    split at h
    next e2 heq2 =>
      by_cases ht : jvTruthy (descPhase html (jsonLdScan html).description) = true
      · rw [if_pos ht] at heq2
        exact ⟨ht, sliceable_of_slice_error _ _ _ heq2⟩
      · rw [if_neg ht] at heq2
        exact Except.noConfusion heq2
    next descF heq2 => exact Except.noConfusion h

/-- A second crafted page (`description: true`) for the witness. -/
def c10whtml : Str := strL "<script type=\"application/ld+json\">\x7b\"name\":\"y\",\"description\":true\x7d</script>"

/-- Witness for `c10_throw_characterization` at the concrete page
`c10whtml`. -/
theorem c10_throw_characterization_witness :
    jvTruthy (descPhase c10whtml (jsonLdScan c10whtml).description) = true
    ∧ sliceable (descPhase c10whtml (jsonLdScan c10whtml).description) = false :=
  c10_throw_characterization c10whtml (by with_unfolding_all rfl)

/-- The first-pass listing for the witness. -/
def c8listing : Listing := ⟨.str [], [], [], [], .str [], fallbackMsg⟩

/-- Witness for `c8_fetch_failure_swallowed`: on a page that does reference a
description iframe, a thrown iframe fetch still yields the inline listing. -/
theorem c8_fetch_failure_swallowed_witness :
    secondPass c8listing (strL "<iframe src=\"https://vi.vipr.ebaydesc.com/d\">")
        (Except.error ()) = Except.ok c8listing
    ∧ fetchFailed (Except.error ()) = true :=
  ⟨c8_fetch_failure_swallowed _ _ _ rfl, rfl⟩

end FitCheck
